import Mathlib

/-!
Shallow embedding of the Riemann-S spectral integrity analyzer
(`riemann_s_master.py`, class `RiemannS`) over exact real arithmetic.

The Python class holds three constants set once in `__init__` and never
mutated; they are embedded as plain definitions.  The two operations,
`analyze_integrity` and `scan_resonance`, are pure functions of their
inputs and are embedded as Lean functions; numpy arrays become `List ℝ`
(or `List ℂ` for the FFT step), and the `None` / result-dict return
becomes `Option ScoreResult`.

The primary embedding uses exact real arithmetic with Lean's total
division.  Two divisions in the source can have a zero denominator on
reachable inputs (`diffs / np.mean(diffs)` in `_unfold`, and the
`n / db / n.sum()` density normalization), where numpy produces NaN
rather than 0; a second, float-faithful layer (`unfoldFP`,
`histDensityFP`, `analyze_integrityFP`, ...) models values as `Option ℝ`
with `none` for a non-finite float, and the claims that depend on those
degenerate paths are settled against it.
-/

namespace RiemannS

open Real

/-- Source: `self.A = 32 / (np.pi**2)` -/
noncomputable def A : ℝ := 32 / Real.pi ^ 2

/-- Source: `self.B = 4 / np.pi` -/
noncomputable def B : ℝ := 4 / Real.pi

/-- Source: `self.resonance_eta = 5.26` -/
noncomputable def resonance_eta : ℝ := 5.26

/-- Source: `np.diff(data)`: consecutive differences `data[i+1] - data[i]`. -/
def npDiff (l : List ℝ) : List ℝ := List.zipWith (fun b a => b - a) l.tail l

/-- Source: `np.mean(l)`: sum divided by length. -/
noncomputable def mean (l : List ℝ) : ℝ := l.sum / l.length

/-- Source: `_unfold(data)`: `diffs = np.diff(data); if len(diffs) == 0: return [];
return diffs / np.mean(diffs)`.  Lean's total division maps the degenerate
`np.mean(diffs) = 0` case (numpy: `0.0/0.0 = NaN` for sorted data) to `0`;
the float-faithful variant `unfoldFP` below marks those entries as
non-finite instead, and the claims touching that path are settled on it. -/
noncomputable def unfold_ (data : List ℝ) : List ℝ :=
  if (npDiff data).length = 0 then []
  else (npDiff data).map fun d => d / mean (npDiff data)

/-- Source: `_wigner_pdf(s)`: `self.A * (s**2) * np.exp(-self.B * (s**2))`. -/
noncomputable def wigner_pdf (s : ℝ) : ℝ := A * s ^ 2 * Real.exp (-B * s ^ 2)

/-- Source: `clean_data = np.sort([x for x in input_data if x > 0])`. -/
noncomputable def cleanData (input_data : List ℝ) : List ℝ :=
  (input_data.filter fun x => decide (0 < x)).insertionSort (· ≤ ·)

/-- The edges `np.linspace(0, 3, 40)`: `binEdge j = 3 * j / 39`. -/
noncomputable def binEdge (j : ℕ) : ℝ := 3 * j / 39

/-- Number of samples in bin `i` of `np.histogram(s, bins)`: bins are
half-open `[edge i, edge (i+1))` except the last, which is closed. -/
noncomputable def binCount (s : List ℝ) (i : ℕ) : ℕ :=
  if i < 38 then s.countP fun x => decide (binEdge i ≤ x ∧ x < binEdge (i + 1))
  else s.countP fun x => decide (binEdge 38 ≤ x ∧ x ≤ binEdge 39)

/-- Source: `n.sum()` in numpy's density normalization: total number of samples
falling inside the binned range. -/
noncomputable def totalCount (s : List ℝ) : ℕ := ∑ i ∈ Finset.range 39, binCount s i

/-- Density value of bin `i` under `density=True`: `n / db / n.sum()`.
Lean's total division maps the degenerate `n.sum() = 0` case (numpy:
`0.0/0.0 = NaN`, a NaN-filled density array) to `0`; the float-faithful
variant `histDensityFP` below marks it as non-finite instead, and the
claims touching that path are settled on it. -/
noncomputable def histDensity (s : List ℝ) (i : ℕ) : ℝ :=
  (binCount s i : ℝ) / (binEdge (i + 1) - binEdge i) / (totalCount s : ℝ)

/-- Source: `centers = (bins[:-1] + bins[1:]) / 2`. -/
noncomputable def centerFn (i : ℕ) : ℝ := (binEdge i + binEdge (i + 1)) / 2

/-- The list of the 39 bin centers. -/
noncomputable def centersList : List ℝ := (List.range 39).map centerFn

/-- Source: `hist` as a list of the 39 density values. -/
noncomputable def histList (s : List ℝ) : List ℝ := (List.range 39).map (histDensity s)

/-- Source: `theory = self._wigner_pdf(centers)`. -/
noncomputable def theoryList : List ℝ := centersList.map wigner_pdf

/-- Source: `epsilon = 1e-10`. -/
noncomputable def eps : ℝ := 1e-10

/-- Source: `scipy.special.rel_entr(p, q)`: `p * log(p / q)` when `p > 0` and
`q > 0`, and `0` when `p = 0 ≤ q`.  (The remaining scipy branch returns
`+inf`; it is unreachable in this program, where both arguments always
carry the additive floor `eps > 0`, and is mapped to the junk value `0`
since `ℝ` has no infinity.) -/
noncomputable def rel_entr (p q : ℝ) : ℝ :=
  if 0 < p ∧ 0 < q then p * Real.log (p / q)
  else if p = 0 ∧ 0 ≤ q then 0
  else 0

/-- Source: `div = np.sum(rel_entr(hist + epsilon, theory + epsilon))`. -/
noncomputable def divergence (s : List ℝ) : ℝ :=
  (List.zipWith (fun p q => rel_entr (p + eps) (q + eps)) (histList s) theoryList).sum

/-- The result dictionary `{"label": ..., "score": ..., "spectrum": ...}`. -/
structure ScoreResult where
  label : String
  score : ℝ
  spectrum : List ℝ × List ℝ × List ℝ

/-- Source: `analyze_integrity(input_data, label)`. -/
noncomputable def analyze_integrity (input_data : List ℝ) (label : String) :
    Option ScoreResult :=
  let clean_data := cleanData input_data
  if clean_data.length < 50 then none
  else
    let s := unfold_ clean_data
    let score := 100 * Real.exp (-divergence s)
    some ⟨label, score, (centersList, histList s, theoryList)⟩

/-- Source: `quantum_filter = np.exp(1j * self.resonance_eta / (t + 1))` for
`t = np.arange(len(data))`. -/
noncomputable def quantumFilter (n : ℕ) : List ℂ :=
  (List.range n).map fun t : ℕ =>
    Complex.exp (Complex.I * (resonance_eta : ℂ) / ((t : ℂ) + 1))

/-- Source: `np.fft.fft(x)`: `X_k = Σ_t x_t · exp(-2πi·k·t/n)`. -/
noncomputable def dft (x : List ℂ) : List ℂ :=
  (List.range x.length).map fun k : ℕ =>
    ((List.range x.length).map fun t : ℕ =>
      x.getD t 0 *
        Complex.exp (-(2 * (Real.pi : ℂ) * Complex.I * (k : ℂ) * (t : ℂ)) / (x.length : ℂ))).sum

/-- Source: `filtered = np.abs(np.fft.fft(data * quantum_filter))`. -/
noncomputable def transformed (data : List ℝ) : List ℝ :=
  (dft (List.zipWith (fun (d : ℝ) (f : ℂ) => (d : ℂ) * f) data
    (quantumFilter data.length))).map Complex.abs

/-- Source: `scan_resonance(data)`: the label is the f-string
`f"Resonancia (Eta={self.resonance_eta})"`, i.e. `"Resonancia (Eta=5.26)"`. -/
noncomputable def scan_resonance (data : List ℝ) : Option ScoreResult :=
  analyze_integrity (transformed data) "Resonancia (Eta=5.26)"

/-- A concrete sample with 50 strictly positive elements `1, 2, ..., 50`,
used to instantiate theorems at a concrete valid input. -/
noncomputable def sample50 : List ℝ := (List.range 50).map fun n : ℕ => ((n : ℝ) + 1)

/-- A concrete impulse sample of length 50 with no positive element:
`[-1, 0, 0, ..., 0]`. -/
noncomputable def impulse50 : List ℝ := (-1 : ℝ) :: List.replicate 49 0

/-- The `ScoreResult` that `analyze_integrity` produces on `sample50`. -/
noncomputable def result50 : ScoreResult :=
  ⟨"Muestra", 100 * Real.exp (-divergence (unfold_ (cleanData sample50))),
    (centersList, histList (unfold_ (cleanData sample50)), theoryList)⟩

/-- Rational upper bounds for `wigner_pdf (centerFn i)`, used to bound
the theoretical-curve sum below 13. -/
def RB (i : ℕ) : ℚ :=
  if i = 0 then 4787247 / 1000000000 else
  if i = 1 then 10610219 / 250000000 else
  if i = 2 then 28597891 / 250000000 else
  if i = 3 then 2142981 / 10000000 else
  if i = 4 then 16676373 / 50000000 else
  if i = 5 then 231037447 / 500000000 else
  if i = 6 then 589590141 / 1000000000 else
  if i = 7 then 176595091 / 250000000 else
  if i = 8 then 402135697 / 500000000 else
  if i = 9 then 877236597 / 1000000000 else
  if i = 10 then 921741147 / 1000000000 else
  if i = 11 then 936791609 / 1000000000 else
  if i = 12 then 923720009 / 1000000000 else
  if i = 13 then 88576183 / 100000000 else
  if i = 14 then 33100199 / 40000000 else
  if i = 15 then 188572903 / 250000000 else
  if i = 16 then 167911767 / 250000000 else
  if i = 17 then 116958763 / 200000000 else
  if i = 18 then 498287111 / 1000000000 else
  if i = 19 then 103946779 / 250000000 else
  if i = 20 then 339962663 / 1000000000 else
  if i = 21 then 34063417 / 125000000 else
  if i = 22 then 214239811 / 1000000000 else
  if i = 23 then 165257361 / 1000000000 else
  if i = 24 then 25022649 / 200000000 else
  if i = 25 then 18598743 / 200000000 else
  if i = 26 then 33938543 / 500000000 else
  if i = 27 then 12166093 / 250000000 else
  if i = 28 then 34277239 / 1000000000 else
  if i = 29 then 2965491 / 125000000 else
  if i = 30 then 8068537 / 500000000 else
  if i = 31 then 10789091 / 1000000000 else
  if i = 32 then 709129 / 100000000 else
  if i = 33 then 4582463 / 1000000000 else
  if i = 34 then 2911753 / 1000000000 else
  if i = 35 then 1819433 / 1000000000 else
  if i = 36 then 111811 / 100000000 else
  if i = 37 then 675829 / 1000000000 else
  if i = 38 then 50227 / 125000000 else
  0

/- ### Float-faithful layer for the degenerate division-by-zero paths

The exact-real definitions above use Lean's total division, which maps a
zero denominator to `0`, whereas numpy produces a non-finite float
(`0.0/0.0 = NaN`).  The definitions below model the same pipeline with
values in `Option ℝ`: `some x` is the finite real `x` and `none` marks a
non-finite float.  In every degenerate path reachable in this program the
non-finite value is specifically a NaN from `0.0/0.0` (a sorted cleaned
sample with zero mean spacing has all spacings zero, and a zero histogram
total has all counts zero), and NaN propagates through every later
arithmetic step, comparisons with NaN being false. -/

/-- Float-faithful `_unfold`: `diffs / np.mean(diffs)` yields non-finite
entries when the mean is zero (for sorted data, `0.0/0.0 = NaN`). -/
noncomputable def unfoldFP (data : List ℝ) : List (Option ℝ) :=
  if (npDiff data).length = 0 then []
  else (npDiff data).map fun d =>
    if mean (npDiff data) = 0 then none else some (d / mean (npDiff data))

/-- Float-faithful bin count: a non-finite value falls in no bin (NaN
comparisons are all false; ±∞ lies outside [0, 3]). -/
noncomputable def binCountFP (s : List (Option ℝ)) (i : ℕ) : ℕ :=
  if i < 38 then
    s.countP fun x => x.elim false fun v => decide (binEdge i ≤ v ∧ v < binEdge (i + 1))
  else
    s.countP fun x => x.elim false fun v => decide (binEdge 38 ≤ v ∧ v ≤ binEdge 39)

/-- Float-faithful in-range total, the `n.sum()` of the normalization. -/
noncomputable def totalCountFP (s : List (Option ℝ)) : ℕ :=
  ∑ i ∈ Finset.range 39, binCountFP s i

/-- Float-faithful density `n / db / n.sum()`: when `n.sum() = 0` every
count is 0 and the division is `0.0/0.0 = NaN`, so each density entry is
non-finite (numpy returns a NaN-filled array, with a RuntimeWarning). -/
noncomputable def histDensityFP (s : List (Option ℝ)) (i : ℕ) : Option ℝ :=
  if totalCountFP s = 0 then none
  else some ((binCountFP s i : ℝ) / (binEdge (i + 1) - binEdge i) / (totalCountFP s : ℝ))

/-- Float-faithful `hist` as a list of the 39 density values. -/
noncomputable def histListFP (s : List (Option ℝ)) : List (Option ℝ) :=
  (List.range 39).map (histDensityFP s)

/-- Addition of float values: a non-finite operand propagates. -/
noncomputable def optAdd (a b : Option ℝ) : Option ℝ :=
  a.elim none fun x => b.elim none fun y => some (x + y)

/-- Sum of a float array (`np.sum`): NaN in, NaN out. -/
noncomputable def optSum (l : List (Option ℝ)) : Option ℝ := l.foldr optAdd (some 0)

/-- Float-faithful `rel_entr`: the finite scipy branches as in `rel_entr`;
a non-finite operand gives NaN, and the scipy `+inf` branch is likewise a
non-finite result. -/
noncomputable def relEntrFP (p q : Option ℝ) : Option ℝ :=
  p.elim none fun a => q.elim none fun b =>
    if 0 < a ∧ 0 < b then some (a * Real.log (a / b))
    else if a = 0 ∧ 0 ≤ b then some 0
    else none

/-- Float-faithful divergence sum. -/
noncomputable def divergenceFP (s : List (Option ℝ)) : Option ℝ :=
  optSum (List.zipWith (fun p q => relEntrFP (optAdd p (some eps)) (some (q + eps)))
    (histListFP s) theoryList)

/-- The quantity of claim C5 in the float model: the sum of bin density
times bin width. -/
noncomputable def histIntegralFP (s : List (Option ℝ)) : Option ℝ :=
  optSum ((List.range 39).map fun i =>
    (histDensityFP s i).map fun d => d * (binEdge (i + 1) - binEdge i))

/-- The result record in the float model: the score can be NaN (`none`). -/
structure ScoreResultFP where
  label : String
  score : Option ℝ
  spectrum : List ℝ × List (Option ℝ) × List ℝ

/-- Float-faithful `analyze_integrity`: identical control flow, with the
number-valued fields carried as float values so that NaN produced on
degenerate inputs is visible instead of collapsed to 0. -/
noncomputable def analyze_integrityFP (input_data : List ℝ) (label : String) :
    Option ScoreResultFP :=
  let clean_data := cleanData input_data
  if clean_data.length < 50 then none
  else
    let s := unfoldFP clean_data
    some ⟨label, (divergenceFP s).map fun d => 100 * Real.exp (-d),
      (centersList, histListFP s, theoryList)⟩

/- ### Basic structural lemmas -/

theorem list_sum_range_map {M : Type*} [AddCommMonoid M] (f : ℕ → M) (n : ℕ) :
    ((List.range n).map f).sum = ∑ i ∈ Finset.range n, f i := by
  induction n with
  | zero => simp
  | succ n ih =>
      rw [List.range_succ, List.map_append, List.sum_append, Finset.sum_range_succ, ih]
      simp

theorem theoryList_sum :
    theoryList.sum = ∑ i ∈ Finset.range 39, wigner_pdf (centerFn i) := by
  rw [theoryList, centersList, List.map_map, list_sum_range_map]
  rfl

theorem divergence_eq (s : List ℝ) :
    divergence s = ∑ i ∈ Finset.range 39,
      rel_entr (histDensity s i + eps) (wigner_pdf (centerFn i) + eps) := by
  rw [divergence, histList, theoryList, centersList, List.map_map,
    List.zipWith_map, List.zipWith_same, list_sum_range_map]
  rfl

theorem cleanData_sorted (l : List ℝ) : (cleanData l).Sorted (· ≤ ·) :=
  List.sorted_insertionSort _ _

theorem cleanData_perm (l : List ℝ) :
    List.Perm (cleanData l) (l.filter fun x => decide (0 < x)) :=
  List.perm_insertionSort _ _

theorem cleanData_length (l : List ℝ) :
    (cleanData l).length = (l.filter fun x => decide (0 < x)).length :=
  (cleanData_perm l).length_eq

theorem npDiff_length (l : List ℝ) : (npDiff l).length = l.length - 1 := by
  simp [npDiff]

theorem npDiff_cons_cons (a b : ℝ) (l : List ℝ) :
    npDiff (a :: b :: l) = (b - a) :: npDiff (b :: l) := rfl

theorem npDiff_nonneg {l : List ℝ} (h : l.Sorted (· ≤ ·)) :
    ∀ d ∈ npDiff l, 0 ≤ d := by
  induction l with
  | nil => simp [npDiff]
  | cons a t ih =>
      cases t with
      | nil => simp [npDiff]
      | cons b t' =>
          rw [npDiff_cons_cons]
          rcases List.sorted_cons.mp h with ⟨hab, ht⟩
          intro d hd
          rcases List.mem_cons.mp hd with h1 | h2
          · have : a ≤ b := hab b (by simp)
            simp [h1]; linarith
          · exact ih ht d h2

theorem list_sum_map_div (l : List ℝ) (m : ℝ) :
    (l.map fun d => d / m).sum = l.sum / m := by
  induction l with
  | nil => simp
  | cons a t ih => simp [ih, add_div]

theorem list_sum_eq_zero_of_nonneg {l : List ℝ} (h : ∀ d ∈ l, 0 ≤ d)
    (hsum : l.sum = 0) : ∀ d ∈ l, d = 0 := by
  induction l with
  | nil => simp
  | cons a t ih =>
      have ha : 0 ≤ a := h a (by simp)
      have ht : 0 ≤ t.sum := List.sum_nonneg fun d hd => h d (List.mem_cons_of_mem _ hd)
      rw [List.sum_cons] at hsum
      have ha0 : a = 0 := by linarith
      have hts : t.sum = 0 := by linarith
      intro d hd
      rcases List.mem_cons.mp hd with h1 | h2
      · rw [h1, ha0]
      · exact ih (fun d hd => h d (List.mem_cons_of_mem _ hd)) hts d h2

/- ### Unfolding and histogram lemmas -/

theorem mean_unfold_one (data : List ℝ) (hlen : (npDiff data).length ≠ 0)
    (hsum : (npDiff data).sum ≠ 0) : mean (unfold_ data) = 1 := by
  have hu : unfold_ data = (npDiff data).map fun d => d / mean (npDiff data) := by
    rw [unfold_, if_neg hlen]
  have hm : mean (npDiff data) ≠ 0 := by
    rw [mean]
    exact div_ne_zero hsum (by exact_mod_cast hlen)
  rw [hu, mean, list_sum_map_div, List.length_map, mean]
  field_simp

theorem binEdge_width (i : ℕ) : binEdge (i + 1) - binEdge i = 3 / 39 := by
  rw [binEdge, binEdge]
  push_cast
  ring

theorem binEdge_eq (j : ℕ) : binEdge j = j / 13 := by
  rw [binEdge]
  ring

theorem histDensity_eq (s : List ℝ) (i : ℕ) :
    histDensity s i = 13 * (binCount s i : ℝ) / (totalCount s : ℝ) := by
  rw [histDensity, binEdge_width]
  ring

theorem histDensity_nonneg (s : List ℝ) (i : ℕ) : 0 ≤ histDensity s i := by
  rw [histDensity_eq]
  positivity

theorem sum_histDensity (s : List ℝ) (hT : 0 < totalCount s) :
    ∑ i ∈ Finset.range 39, histDensity s i = 13 := by
  have hTne : (totalCount s : ℝ) ≠ 0 := Nat.cast_ne_zero.mpr hT.ne'
  have h1 : ∀ i ∈ Finset.range 39,
      histDensity s i = 13 * (binCount s i : ℝ) / (totalCount s : ℝ) :=
    fun i _ => histDensity_eq s i
  rw [Finset.sum_congr rfl h1]
  have h2 : ∑ i ∈ Finset.range 39, 13 * (binCount s i : ℝ) / (totalCount s : ℝ) =
      (13 * ∑ i ∈ Finset.range 39, (binCount s i : ℝ)) / (totalCount s : ℝ) := by
    rw [Finset.mul_sum, Finset.sum_div]
  rw [h2]
  have h3 : ∑ i ∈ Finset.range 39, (binCount s i : ℝ) = (totalCount s : ℝ) := by
    rw [totalCount]
    push_cast
    rfl
  rw [h3]
  field_simp

theorem totalCount_pos_of_mem_unit (s : List ℝ) (x : ℝ) (hx : x ∈ s)
    (h0 : 0 ≤ x) (h1 : x ≤ 1) : 0 < totalCount s := by
  set i : ℕ := ⌊13 * x⌋₊ with hi
  have h13x : (0 : ℝ) ≤ 13 * x := by linarith
  have hile : i ≤ 13 := by
    have : (13 : ℝ) * x ≤ (13 : ℕ) := by push_cast; linarith
    calc i ≤ ⌊((13 : ℕ) : ℝ)⌋₊ := Nat.floor_le_floor this
      _ = 13 := Nat.floor_natCast 13
  have hlow : binEdge i ≤ x := by
    rw [binEdge_eq]
    rw [div_le_iff (by norm_num : (0 : ℝ) < 13)]
    calc (i : ℝ) ≤ 13 * x := Nat.floor_le h13x
      _ = x * 13 := by ring
  have hhigh : x < binEdge (i + 1) := by
    rw [binEdge_eq]
    rw [lt_div_iff (by norm_num : (0 : ℝ) < 13)]
    have := Nat.lt_floor_add_one (13 * x)
    push_cast
    linarith
  have hcount : 0 < binCount s i := by
    rw [binCount, if_pos (by omega : i < 38)]
    refine List.countP_pos_iff.mpr ⟨x, hx, ?_⟩
    rw [decide_eq_true_eq]
    exact ⟨hlow, hhigh⟩
  have hmem : i ∈ Finset.range 39 := Finset.mem_range.mpr (by omega)
  calc 0 < binCount s i := hcount
    _ ≤ totalCount s := Finset.single_le_sum (fun j _ => Nat.zero_le _) hmem

theorem list_length_lt_sum_of_gt_one :
    ∀ l : List ℝ, (∀ x ∈ l, 1 < x) → l ≠ [] → (l.length : ℝ) < l.sum := by
  intro l
  induction l with
  | nil => intro _ hne; exact absurd rfl hne
  | cons a t ih =>
      intro h _
      have ha : 1 < a := h a (by simp)
      by_cases ht : t = []
      · subst ht; simp; linarith
      · have hrec := ih (fun x hx => h x (List.mem_cons_of_mem _ hx)) ht
        simp only [List.sum_cons, List.length_cons]
        push_cast
        linarith

theorem exists_mem_unfold_unit (data : List ℝ) (hs : data.Sorted (· ≤ ·))
    (h2 : 2 ≤ data.length) : ∃ x ∈ unfold_ data, 0 ≤ x ∧ x ≤ 1 := by
  have hlen : (npDiff data).length ≠ 0 := by rw [npDiff_length]; omega
  have hnn := npDiff_nonneg hs
  have hu : unfold_ data = (npDiff data).map fun d => d / mean (npDiff data) := by
    rw [unfold_, if_neg hlen]
  obtain ⟨d0, hd0⟩ := List.exists_mem_of_ne_nil (npDiff data)
    (fun hnil => hlen (by rw [hnil]; rfl))
  by_cases hsum : (npDiff data).sum = 0
  · -- all differences are zero, the mean is zero, and every quotient is 0
    have hall := list_sum_eq_zero_of_nonneg hnn hsum
    refine ⟨d0 / mean (npDiff data), by rw [hu]; exact List.mem_map_of_mem _ hd0, ?_⟩
    rw [hall d0 hd0, zero_div]
    norm_num
  · -- positive mean: the unfolded spacings are nonnegative with mean 1
    have hsumpos : 0 < (npDiff data).sum := by
      rcases lt_or_eq_of_le (List.sum_nonneg hnn) with h | h
      · exact h
      · exact absurd h.symm hsum
    have hmpos : 0 < mean (npDiff data) := by
      rw [mean]
      apply div_pos hsumpos
      have : 0 < (npDiff data).length := Nat.pos_of_ne_zero hlen
      exact_mod_cast this
    have hmean1 : mean (unfold_ data) = 1 := mean_unfold_one data hlen hsum
    by_contra hno
    push_neg at hno
    -- every element of the unfolded list is nonnegative, so all must exceed 1
    have hgt : ∀ x ∈ unfold_ data, 1 < x := by
      intro x hxm
      have hx0 : 0 ≤ x := by
        rw [hu] at hxm
        rcases List.mem_map.mp hxm with ⟨d, hd, hdx⟩
        rw [← hdx]
        exact div_nonneg (hnn d hd) hmpos.le
      exact hno x hxm hx0
    have hulen : 0 < (unfold_ data).length := by
      rw [hu, List.length_map]
      exact Nat.pos_of_ne_zero hlen
    have hsumgt : ((unfold_ data).length : ℝ) < (unfold_ data).sum :=
      list_length_lt_sum_of_gt_one (unfold_ data) hgt (List.length_pos.mp hulen)
    have : mean (unfold_ data) ≠ 1 := by
      rw [mean]
      have hl : (0 : ℝ) < ((unfold_ data).length : ℝ) := by exact_mod_cast hulen
      have : 1 < (unfold_ data).sum / ((unfold_ data).length : ℝ) := by
        rw [lt_div_iff hl]
        linarith
      linarith
    exact this hmean1

theorem totalCount_unfold_pos (data : List ℝ) (hs : data.Sorted (· ≤ ·))
    (h2 : 2 ≤ data.length) : 0 < totalCount (unfold_ data) := by
  obtain ⟨x, hx, h0, h1⟩ := exists_mem_unfold_unit data hs h2
  exact totalCount_pos_of_mem_unit _ x hx h0 h1

/- ### The log-sum inequality, from Jensen's inequality for x ↦ x·log x -/

theorem log_sum_inequality (n : ℕ) (p q : ℕ → ℝ) (hn : 0 < n)
    (hp : ∀ i ∈ Finset.range n, 0 < p i) (hq : ∀ i ∈ Finset.range n, 0 < q i) :
    (∑ i ∈ Finset.range n, p i) *
        Real.log ((∑ i ∈ Finset.range n, p i) / (∑ i ∈ Finset.range n, q i)) ≤
      ∑ i ∈ Finset.range n, p i * Real.log (p i / q i) := by
  set P := ∑ i ∈ Finset.range n, p i with hPdef
  set Q := ∑ i ∈ Finset.range n, q i with hQdef
  have hQpos : 0 < Q := Finset.sum_pos hq ⟨0, Finset.mem_range.mpr hn⟩
  have h₀ : ∀ i ∈ Finset.range n, 0 ≤ q i / Q :=
    fun i hi => div_nonneg (hq i hi).le hQpos.le
  have h₁ : ∑ i ∈ Finset.range n, q i / Q = 1 := by
    rw [← Finset.sum_div]
    exact div_self hQpos.ne'
  have hmem : ∀ i ∈ Finset.range n, p i / q i ∈ Set.Ici (0 : ℝ) :=
    fun i hi => Set.mem_Ici.mpr (div_nonneg (hp i hi).le (hq i hi).le)
  have hjensen : (fun x : ℝ => x * Real.log x)
        (∑ i ∈ Finset.range n, (q i / Q) • (p i / q i)) ≤
      ∑ i ∈ Finset.range n, (q i / Q) •
        ((fun x : ℝ => x * Real.log x) (p i / q i)) :=
    Real.convexOn_mul_log.map_sum_le h₀ h₁ hmem
  have e1 : ∑ i ∈ Finset.range n, (q i / Q) • (p i / q i) = P / Q := by
    have e1a : ∀ i ∈ Finset.range n, (q i / Q) • (p i / q i) = p i / Q := by
      intro i hi
      have hqi : q i ≠ 0 := (hq i hi).ne'
      rw [smul_eq_mul]
      field_simp [hqi, hQpos.ne']
      ring
    rw [Finset.sum_congr rfl e1a, ← Finset.sum_div]
  have e2 : ∑ i ∈ Finset.range n, (q i / Q) •
        ((fun x : ℝ => x * Real.log x) (p i / q i)) =
      (∑ i ∈ Finset.range n, p i * Real.log (p i / q i)) / Q := by
    rw [Finset.sum_div]
    refine Finset.sum_congr rfl fun i hi => ?_
    simp only [smul_eq_mul]
    have hqi : q i ≠ 0 := (hq i hi).ne'
    field_simp [hqi, hQpos.ne']
    ring
  rw [e1, e2] at hjensen
  simp only at hjensen
  have hfin := mul_le_mul_of_nonneg_right hjensen hQpos.le
  have hL : P / Q * Real.log (P / Q) * Q = P * Real.log (P / Q) := by
    field_simp
  have hR : (∑ i ∈ Finset.range n, p i * Real.log (p i / q i)) / Q * Q =
      ∑ i ∈ Finset.range n, p i * Real.log (p i / q i) :=
    div_mul_cancel₀ _ hQpos.ne'
  rw [hL, hR] at hfin
  exact hfin

/- ### Rational upper bounds for the Wigner pdf at the bin centers -/

theorem wigner_pdf_nonneg (s : ℝ) : 0 ≤ wigner_pdf s := by
  rw [wigner_pdf, A]
  have := Real.pi_pos
  positivity

theorem wigner_pdf_le_of (c y M r : ℚ) (n : ℕ) (hc : 0 ≤ c) (hy : 0 ≤ y)
    (hyB : y * 3141593 ≤ 4 * c ^ 2 * 1000000) (hM : 0 < M)
    (hMle : M ≤ ∑ k ∈ Finset.range n, y ^ k / (Nat.factorial k : ℚ))
    (hr : 32 * 1000000 ^ 2 * c ^ 2 ≤ r * M * 3141592 ^ 2) :
    wigner_pdf ((c : ℚ) : ℝ) ≤ ((r : ℚ) : ℝ) := by
  have hπl : (3.141592 : ℝ) < Real.pi := Real.pi_gt_d6
  have hπu : Real.pi < 3.141593 := Real.pi_lt_d6
  have hπ0 : (0 : ℝ) < Real.pi := Real.pi_pos
  set C : ℝ := ((c : ℚ) : ℝ) with hCdef
  have hC0 : 0 ≤ C := by rw [hCdef]; exact_mod_cast hc
  have hyR : (0 : ℝ) ≤ ((y : ℚ) : ℝ) := by exact_mod_cast hy
  have h1 : ((y : ℚ) : ℝ) ≤ B * C ^ 2 := by
    rw [B]
    have ha : ((y : ℚ) : ℝ) * 3141593 ≤ 4 * C ^ 2 * 1000000 := by
      rw [hCdef]
      exact_mod_cast hyB
    rw [div_mul_eq_mul_div, le_div_iff hπ0]
    nlinarith [mul_nonneg hyR (sub_nonneg.mpr hπu.le)]
  have h2 : ((M : ℚ) : ℝ) ≤ Real.exp (B * C ^ 2) := by
    have h2a : ((M : ℚ) : ℝ) ≤
        ((∑ k ∈ Finset.range n, y ^ k / (Nat.factorial k : ℚ) : ℚ) : ℝ) := by
      exact_mod_cast hMle
    push_cast at h2a
    calc ((M : ℚ) : ℝ)
        ≤ ∑ k ∈ Finset.range n, ((y : ℚ) : ℝ) ^ k / (Nat.factorial k : ℝ) := h2a
      _ ≤ Real.exp ((y : ℚ) : ℝ) := Real.sum_le_exp_of_nonneg hyR n
      _ ≤ Real.exp (B * C ^ 2) := Real.exp_le_exp.mpr h1
  have hMR : (0 : ℝ) < ((M : ℚ) : ℝ) := by exact_mod_cast hM
  have h3 : Real.exp (-(B * C ^ 2)) ≤ ((M : ℚ) : ℝ)⁻¹ := by
    rw [Real.exp_neg]
    exact inv_le_inv_of_le hMR h2
  have h4 : A ≤ ((32 * 1000000 ^ 2 / 3141592 ^ 2 : ℚ) : ℝ) := by
    rw [A]
    push_cast
    rw [div_le_div_iff (by positivity) (by positivity)]
    nlinarith [mul_pos (sub_pos.mpr hπl) (by positivity : (0 : ℝ) < Real.pi + 3.141592)]
  have hE0 : 0 ≤ Real.exp (-(B * C ^ 2)) := (Real.exp_pos _).le
  have hA0 : 0 ≤ A := by
    rw [A]
    positivity
  calc wigner_pdf C = A * C ^ 2 * Real.exp (-(B * C ^ 2)) := by
        rw [wigner_pdf, neg_mul]
    _ ≤ ((32 * 1000000 ^ 2 / 3141592 ^ 2 : ℚ) : ℝ) * C ^ 2 * ((M : ℚ) : ℝ)⁻¹ := by
        refine mul_le_mul (mul_le_mul_of_nonneg_right h4 (sq_nonneg C)) h3 hE0 ?_
        positivity
    _ ≤ ((r : ℚ) : ℝ) := by
        have h5 : (32 * 1000000 ^ 2 / 3141592 ^ 2 : ℚ) * c ^ 2 * M⁻¹ ≤ r := by
          have h6 : (32 * 1000000 ^ 2 / 3141592 ^ 2 : ℚ) * c ^ 2 * M⁻¹ =
              32 * 1000000 ^ 2 * c ^ 2 / (3141592 ^ 2 * M) := by
            field_simp
          rw [h6, div_le_iff (by positivity)]
          nlinarith [hr]
        rw [hCdef]
        exact_mod_cast h5

theorem wigner_bound_0 :
    wigner_pdf (centerFn 0) ≤ ((4787247 / 1000000000 : ℚ) : ℝ) := by
  have hc : centerFn 0 = ((1 / 26 : ℚ) : ℝ) := by
    rw [centerFn, binEdge, binEdge]
    push_cast
    norm_num
  rw [hc]
  exact wigner_pdf_le_of (1 / 26) (1000000 / 530929217) (1001885263 / 1000000000) (4787247 / 1000000000) 3 (by norm_num)
    (by norm_num) (by norm_num) (by norm_num)
    (by norm_num [Finset.sum_range_succ, Nat.factorial]) (by norm_num)

theorem wigner_bound_1 :
    wigner_pdf (centerFn 1) ≤ ((10610219 / 250000000 : ℚ) : ℝ) := by
  have hc : centerFn 1 = ((3 / 26 : ℚ) : ℝ) := by
    rw [centerFn, binEdge, binEdge]
    push_cast
    norm_num
  rw [hc]
  exact wigner_pdf_le_of (3 / 26) (9000000 / 530929217) (508547949 / 500000000) (10610219 / 250000000) 4 (by norm_num)
    (by norm_num) (by norm_num) (by norm_num)
    (by norm_num [Finset.sum_range_succ, Nat.factorial]) (by norm_num)

theorem wigner_bound_2 :
    wigner_pdf (centerFn 2) ≤ ((28597891 / 250000000 : ℚ) : ℝ) := by
  have hc : centerFn 2 = ((5 / 26 : ℚ) : ℝ) := by
    rw [centerFn, binEdge, binEdge]
    push_cast
    norm_num
  rw [hc]
  exact wigner_pdf_le_of (5 / 26) (25000000 / 530929217) (209642693 / 200000000) (28597891 / 250000000) 5 (by norm_num)
    (by norm_num) (by norm_num) (by norm_num)
    (by norm_num [Finset.sum_range_succ, Nat.factorial]) (by norm_num)

theorem wigner_bound_3 :
    wigner_pdf (centerFn 3) ≤ ((2142981 / 10000000 : ℚ) : ℝ) := by
  have hc : centerFn 3 = ((7 / 26 : ℚ) : ℝ) := by
    rw [centerFn, binEdge, binEdge]
    push_cast
    norm_num
  rw [hc]
  exact wigner_pdf_le_of (7 / 26) (7000000 / 75847031) (274170983 / 250000000) (2142981 / 10000000) 6 (by norm_num)
    (by norm_num) (by norm_num) (by norm_num)
    (by norm_num [Finset.sum_range_succ, Nat.factorial]) (by norm_num)

theorem wigner_bound_4 :
    wigner_pdf (centerFn 4) ≤ ((16676373 / 50000000 : ℚ) : ℝ) := by
  have hc : centerFn 4 = ((9 / 26 : ℚ) : ℝ) := by
    rw [centerFn, binEdge, binEdge]
    push_cast
    norm_num
  rw [hc]
  exact wigner_pdf_le_of (9 / 26) (81000000 / 530929217) (1164815503 / 1000000000) (16676373 / 50000000) 7 (by norm_num)
    (by norm_num) (by norm_num) (by norm_num)
    (by norm_num [Finset.sum_range_succ, Nat.factorial]) (by norm_num)

theorem wigner_bound_5 :
    wigner_pdf (centerFn 5) ≤ ((231037447 / 500000000 : ℚ) : ℝ) := by
  have hc : centerFn 5 = ((11 / 26 : ℚ) : ℝ) := by
    rw [centerFn, binEdge, binEdge]
    push_cast
    norm_num
  rw [hc]
  exact wigner_pdf_le_of (11 / 26) (121000000 / 530929217) (313990657 / 250000000) (231037447 / 500000000) 7 (by norm_num)
    (by norm_num) (by norm_num) (by norm_num)
    (by norm_num [Finset.sum_range_succ, Nat.factorial]) (by norm_num)

theorem wigner_bound_6 :
    wigner_pdf (centerFn 6) ≤ ((589590141 / 1000000000 : ℚ) : ℝ) := by
  have hc : centerFn 6 = ((1 / 2 : ℚ) : ℝ) := by
    rw [centerFn, binEdge, binEdge]
    push_cast
    norm_num
  rw [hc]
  exact wigner_pdf_le_of (1 / 2) (1000000 / 3141593) (54992087 / 40000000) (589590141 / 1000000000) 8 (by norm_num)
    (by norm_num) (by norm_num) (by norm_num)
    (by norm_num [Finset.sum_range_succ, Nat.factorial]) (by norm_num)

theorem wigner_bound_7 :
    wigner_pdf (centerFn 7) ≤ ((176595091 / 250000000 : ℚ) : ℝ) := by
  have hc : centerFn 7 = ((15 / 26 : ℚ) : ℝ) := by
    rw [centerFn, binEdge, binEdge]
    push_cast
    norm_num
  rw [hc]
  exact wigner_pdf_le_of (15 / 26) (225000000 / 530929217) (1527733559 / 1000000000) (176595091 / 250000000) 9 (by norm_num)
    (by norm_num) (by norm_num) (by norm_num)
    (by norm_num [Finset.sum_range_succ, Nat.factorial]) (by norm_num)

theorem wigner_bound_8 :
    wigner_pdf (centerFn 8) ≤ ((402135697 / 500000000 : ℚ) : ℝ) := by
  have hc : centerFn 8 = ((17 / 26 : ℚ) : ℝ) := by
    rw [centerFn, binEdge, binEdge]
    push_cast
    norm_num
  rw [hc]
  exact wigner_pdf_le_of (17 / 26) (289000000 / 530929217) (861725497 / 500000000) (402135697 / 500000000) 9 (by norm_num)
    (by norm_num) (by norm_num) (by norm_num)
    (by norm_num [Finset.sum_range_succ, Nat.factorial]) (by norm_num)

theorem wigner_bound_9 :
    wigner_pdf (centerFn 9) ≤ ((877236597 / 1000000000 : ℚ) : ℝ) := by
  have hc : centerFn 9 = ((19 / 26 : ℚ) : ℝ) := by
    rw [centerFn, binEdge, binEdge]
    push_cast
    norm_num
  rw [hc]
  exact wigner_pdf_le_of (19 / 26) (19000000 / 27943643) (493439813 / 250000000) (877236597 / 1000000000) 10 (by norm_num)
    (by norm_num) (by norm_num) (by norm_num)
    (by norm_num [Finset.sum_range_succ, Nat.factorial]) (by norm_num)

theorem wigner_bound_10 :
    wigner_pdf (centerFn 10) ≤ ((921741147 / 1000000000 : ℚ) : ℝ) := by
  have hc : centerFn 10 = ((21 / 26 : ℚ) : ℝ) := by
    rw [centerFn, binEdge, binEdge]
    push_cast
    norm_num
  rw [hc]
  exact wigner_pdf_le_of (21 / 26) (63000000 / 75847031) (286842399 / 125000000) (921741147 / 1000000000) 11 (by norm_num)
    (by norm_num) (by norm_num) (by norm_num)
    (by norm_num [Finset.sum_range_succ, Nat.factorial]) (by norm_num)

theorem wigner_bound_11 :
    wigner_pdf (centerFn 11) ≤ ((936791609 / 1000000000 : ℚ) : ℝ) := by
  have hc : centerFn 11 = ((23 / 26 : ℚ) : ℝ) := by
    rw [centerFn, binEdge, binEdge]
    push_cast
    norm_num
  rw [hc]
  exact wigner_pdf_le_of (23 / 26) (23000000 / 23083879) (2708422409 / 1000000000) (936791609 / 1000000000) 11 (by norm_num)
    (by norm_num) (by norm_num) (by norm_num)
    (by norm_num [Finset.sum_range_succ, Nat.factorial]) (by norm_num)

theorem wigner_bound_12 :
    wigner_pdf (centerFn 12) ≤ ((923720009 / 1000000000 : ℚ) : ℝ) := by
  have hc : centerFn 12 = ((25 / 26 : ℚ) : ℝ) := by
    rw [centerFn, binEdge, binEdge]
    push_cast
    norm_num
  rw [hc]
  exact wigner_pdf_le_of (25 / 26) (625000000 / 530929217) (3245214327 / 1000000000) (923720009 / 1000000000) 12 (by norm_num)
    (by norm_num) (by norm_num) (by norm_num)
    (by norm_num [Finset.sum_range_succ, Nat.factorial]) (by norm_num)

theorem wigner_bound_13 :
    wigner_pdf (centerFn 13) ≤ ((88576183 / 100000000 : ℚ) : ℝ) := by
  have hc : centerFn 13 = ((27 / 26 : ℚ) : ℝ) := by
    rw [centerFn, binEdge, binEdge]
    push_cast
    norm_num
  rw [hc]
  exact wigner_pdf_le_of (27 / 26) (729000000 / 530929217) (1973714309 / 500000000) (88576183 / 100000000) 13 (by norm_num)
    (by norm_num) (by norm_num) (by norm_num)
    (by norm_num [Finset.sum_range_succ, Nat.factorial]) (by norm_num)

theorem wigner_bound_14 :
    wigner_pdf (centerFn 14) ≤ ((33100199 / 40000000 : ℚ) : ℝ) := by
  have hc : centerFn 14 = ((29 / 26 : ℚ) : ℝ) := by
    rw [centerFn, binEdge, binEdge]
    push_cast
    norm_num
  rw [hc]
  exact wigner_pdf_le_of (29 / 26) (841000000 / 530929217) (4874489069 / 1000000000) (33100199 / 40000000) 14 (by norm_num)
    (by norm_num) (by norm_num) (by norm_num)
    (by norm_num [Finset.sum_range_succ, Nat.factorial]) (by norm_num)

theorem wigner_bound_15 :
    wigner_pdf (centerFn 15) ≤ ((188572903 / 250000000 : ℚ) : ℝ) := by
  have hc : centerFn 15 = ((31 / 26 : ℚ) : ℝ) := by
    rw [centerFn, binEdge, binEdge]
    push_cast
    norm_num
  rw [hc]
  exact wigner_pdf_le_of (31 / 26) (961000000 / 530929217) (1527663973 / 250000000) (188572903 / 250000000) 14 (by norm_num)
    (by norm_num) (by norm_num) (by norm_num)
    (by norm_num [Finset.sum_range_succ, Nat.factorial]) (by norm_num)

theorem wigner_bound_16 :
    wigner_pdf (centerFn 16) ≤ ((167911767 / 250000000 : ℚ) : ℝ) := by
  have hc : centerFn 16 = ((33 / 26 : ℚ) : ℝ) := by
    rw [centerFn, binEdge, binEdge]
    push_cast
    norm_num
  rw [hc]
  exact wigner_pdf_le_of (33 / 26) (1089000000 / 530929217) (7776612789 / 1000000000) (167911767 / 250000000) 15 (by norm_num)
    (by norm_num) (by norm_num) (by norm_num)
    (by norm_num [Finset.sum_range_succ, Nat.factorial]) (by norm_num)

theorem wigner_bound_17 :
    wigner_pdf (centerFn 17) ≤ ((116958763 / 200000000 : ℚ) : ℝ) := by
  have hc : centerFn 17 = ((35 / 26 : ℚ) : ℝ) := by
    rw [centerFn, binEdge, binEdge]
    push_cast
    norm_num
  rw [hc]
  exact wigner_pdf_le_of (35 / 26) (175000000 / 75847031) (2009402937 / 200000000) (116958763 / 200000000) 16 (by norm_num)
    (by norm_num) (by norm_num) (by norm_num)
    (by norm_num [Finset.sum_range_succ, Nat.factorial]) (by norm_num)

theorem wigner_bound_18 :
    wigner_pdf (centerFn 18) ≤ ((498287111 / 1000000000 : ℚ) : ℝ) := by
  have hc : centerFn 18 = ((37 / 26 : ℚ) : ℝ) := by
    rw [centerFn, binEdge, binEdge]
    push_cast
    norm_num
  rw [hc]
  exact wigner_pdf_le_of (37 / 26) (1369000000 / 530929217) (2635466557 / 200000000) (498287111 / 1000000000) 17 (by norm_num)
    (by norm_num) (by norm_num) (by norm_num)
    (by norm_num [Finset.sum_range_succ, Nat.factorial]) (by norm_num)

theorem wigner_bound_19 :
    wigner_pdf (centerFn 19) ≤ ((103946779 / 250000000 : ℚ) : ℝ) := by
  have hc : centerFn 19 = ((3 / 2 : ℚ) : ℝ) := by
    rw [centerFn, binEdge, binEdge]
    push_cast
    norm_num
  rw [hc]
  exact wigner_pdf_le_of (3 / 2) (9000000 / 3141593) (17545344743 / 1000000000) (103946779 / 250000000) 18 (by norm_num)
    (by norm_num) (by norm_num) (by norm_num)
    (by norm_num [Finset.sum_range_succ, Nat.factorial]) (by norm_num)

theorem wigner_bound_20 :
    wigner_pdf (centerFn 20) ≤ ((339962663 / 1000000000 : ℚ) : ℝ) := by
  have hc : centerFn 20 = ((41 / 26 : ℚ) : ℝ) := by
    rw [centerFn, binEdge, binEdge]
    push_cast
    norm_num
  rw [hc]
  exact wigner_pdf_le_of (41 / 26) (1681000000 / 530929217) (11857966379 / 500000000) (339962663 / 1000000000) 18 (by norm_num)
    (by norm_num) (by norm_num) (by norm_num)
    (by norm_num [Finset.sum_range_succ, Nat.factorial]) (by norm_num)

theorem wigner_bound_21 :
    wigner_pdf (centerFn 21) ≤ ((34063417 / 125000000 : ℚ) : ℝ) := by
  have hc : centerFn 21 = ((43 / 26 : ℚ) : ℝ) := by
    rw [centerFn, binEdge, binEdge]
    push_cast
    norm_num
  rw [hc]
  exact wigner_pdf_le_of (43 / 26) (1849000000 / 530929217) (8135840809 / 250000000) (34063417 / 125000000) 19 (by norm_num)
    (by norm_num) (by norm_num) (by norm_num)
    (by norm_num [Finset.sum_range_succ, Nat.factorial]) (by norm_num)

theorem wigner_bound_22 :
    wigner_pdf (centerFn 22) ≤ ((214239811 / 1000000000 : ℚ) : ℝ) := by
  have hc : centerFn 22 = ((45 / 26 : ℚ) : ℝ) := by
    rw [centerFn, binEdge, binEdge]
    push_cast
    norm_num
  rw [hc]
  exact wigner_pdf_le_of (45 / 26) (2025000000 / 530929217) (906689461 / 20000000) (214239811 / 1000000000) 20 (by norm_num)
    (by norm_num) (by norm_num) (by norm_num)
    (by norm_num [Finset.sum_range_succ, Nat.factorial]) (by norm_num)

theorem wigner_bound_23 :
    wigner_pdf (centerFn 23) ≤ ((165257361 / 1000000000 : ℚ) : ℝ) := by
  have hc : centerFn 23 = ((47 / 26 : ℚ) : ℝ) := by
    rw [centerFn, binEdge, binEdge]
    push_cast
    norm_num
  rw [hc]
  exact wigner_pdf_le_of (47 / 26) (2209000000 / 530929217) (64111896737 / 1000000000) (165257361 / 1000000000) 21 (by norm_num)
    (by norm_num) (by norm_num) (by norm_num)
    (by norm_num [Finset.sum_range_succ, Nat.factorial]) (by norm_num)

theorem wigner_bound_24 :
    wigner_pdf (centerFn 24) ≤ ((25022649 / 200000000 : ℚ) : ℝ) := by
  have hc : centerFn 24 = ((49 / 26 : ℚ) : ℝ) := by
    rw [centerFn, binEdge, binEdge]
    push_cast
    norm_num
  rw [hc]
  exact wigner_pdf_le_of (49 / 26) (343000000 / 75847031) (92043387629 / 1000000000) (25022649 / 200000000) 22 (by norm_num)
    (by norm_num) (by norm_num) (by norm_num)
    (by norm_num [Finset.sum_range_succ, Nat.factorial]) (by norm_num)

theorem wigner_bound_25 :
    wigner_pdf (centerFn 25) ≤ ((18598743 / 200000000 : ℚ) : ℝ) := by
  have hc : centerFn 25 = ((51 / 26 : ℚ) : ℝ) := by
    rw [centerFn, binEdge, binEdge]
    push_cast
    norm_num
  rw [hc]
  exact wigner_pdf_le_of (51 / 26) (2601000000 / 530929217) (134149938659 / 1000000000) (18598743 / 200000000) 23 (by norm_num)
    (by norm_num) (by norm_num) (by norm_num)
    (by norm_num [Finset.sum_range_succ, Nat.factorial]) (by norm_num)

theorem wigner_bound_26 :
    wigner_pdf (centerFn 26) ≤ ((33938543 / 500000000 : ℚ) : ℝ) := by
  have hc : centerFn 26 = ((53 / 26 : ℚ) : ℝ) := by
    rw [centerFn, binEdge, binEdge]
    push_cast
    norm_num
  rw [hc]
  exact wigner_pdf_le_of (53 / 26) (2809000000 / 530929217) (198487096009 / 1000000000) (33938543 / 500000000) 24 (by norm_num)
    (by norm_num) (by norm_num) (by norm_num)
    (by norm_num [Finset.sum_range_succ, Nat.factorial]) (by norm_num)

theorem wigner_bound_27 :
    wigner_pdf (centerFn 27) ≤ ((12166093 / 250000000 : ℚ) : ℝ) := by
  have hc : centerFn 27 = ((55 / 26 : ℚ) : ℝ) := by
    rw [centerFn, binEdge, binEdge]
    push_cast
    norm_num
  rw [hc]
  exact wigner_pdf_le_of (55 / 26) (3025000000 / 530929217) (74534612493 / 250000000) (12166093 / 250000000) 24 (by norm_num)
    (by norm_num) (by norm_num) (by norm_num)
    (by norm_num [Finset.sum_range_succ, Nat.factorial]) (by norm_num)

theorem wigner_bound_28 :
    wigner_pdf (centerFn 28) ≤ ((34277239 / 1000000000 : ℚ) : ℝ) := by
  have hc : centerFn 28 = ((57 / 26 : ℚ) : ℝ) := by
    rw [centerFn, binEdge, binEdge]
    push_cast
    norm_num
  rw [hc]
  exact wigner_pdf_le_of (57 / 26) (171000000 / 27943643) (45461903897 / 100000000) (34277239 / 1000000000) 25 (by norm_num)
    (by norm_num) (by norm_num) (by norm_num)
    (by norm_num [Finset.sum_range_succ, Nat.factorial]) (by norm_num)

theorem wigner_bound_29 :
    wigner_pdf (centerFn 29) ≤ ((2965491 / 125000000 : ℚ) : ℝ) := by
  have hc : centerFn 29 = ((59 / 26 : ℚ) : ℝ) := by
    rw [centerFn, binEdge, binEdge]
    push_cast
    norm_num
  rw [hc]
  exact wigner_pdf_le_of (59 / 26) (3481000000 / 530929217) (703754468027 / 1000000000) (2965491 / 125000000) 26 (by norm_num)
    (by norm_num) (by norm_num) (by norm_num)
    (by norm_num [Finset.sum_range_succ, Nat.factorial]) (by norm_num)

theorem wigner_bound_30 :
    wigner_pdf (centerFn 30) ≤ ((8068537 / 500000000 : ℚ) : ℝ) := by
  have hc : centerFn 30 = ((61 / 26 : ℚ) : ℝ) := by
    rw [centerFn, binEdge, binEdge]
    push_cast
    norm_num
  rw [hc]
  exact wigner_pdf_le_of (61 / 26) (3721000000 / 530929217) (276489494589 / 250000000) (8068537 / 500000000) 27 (by norm_num)
    (by norm_num) (by norm_num) (by norm_num)
    (by norm_num [Finset.sum_range_succ, Nat.factorial]) (by norm_num)

theorem wigner_bound_31 :
    wigner_pdf (centerFn 31) ≤ ((10789091 / 1000000000 : ℚ) : ℝ) := by
  have hc : centerFn 31 = ((63 / 26 : ℚ) : ℝ) := by
    rw [centerFn, binEdge, binEdge]
    push_cast
    norm_num
  rw [hc]
  exact wigner_pdf_le_of (63 / 26) (567000000 / 75847031) (1764411996957 / 1000000000) (10789091 / 1000000000) 28 (by norm_num)
    (by norm_num) (by norm_num) (by norm_num)
    (by norm_num [Finset.sum_range_succ, Nat.factorial]) (by norm_num)

theorem wigner_bound_32 :
    wigner_pdf (centerFn 32) ≤ ((709129 / 100000000 : ℚ) : ℝ) := by
  have hc : centerFn 32 = ((5 / 2 : ℚ) : ℝ) := by
    rw [centerFn, binEdge, binEdge]
    push_cast
    norm_num
  rw [hc]
  exact wigner_pdf_le_of (5 / 2) (25000000 / 3141593) (285762537367 / 100000000) (709129 / 100000000) 29 (by norm_num)
    (by norm_num) (by norm_num) (by norm_num)
    (by norm_num [Finset.sum_range_succ, Nat.factorial]) (by norm_num)

theorem wigner_bound_33 :
    wigner_pdf (centerFn 33) ≤ ((4582463 / 1000000000 : ℚ) : ℝ) := by
  have hc : centerFn 33 = ((67 / 26 : ℚ) : ℝ) := by
    rw [centerFn, binEdge, binEdge]
    push_cast
    norm_num
  rw [hc]
  exact wigner_pdf_le_of (67 / 26) (4489000000 / 530929217) (4698448816393 / 1000000000) (4582463 / 1000000000) 30 (by norm_num)
    (by norm_num) (by norm_num) (by norm_num)
    (by norm_num [Finset.sum_range_succ, Nat.factorial]) (by norm_num)

theorem wigner_bound_34 :
    wigner_pdf (centerFn 34) ≤ ((2911753 / 1000000000 : ℚ) : ℝ) := by
  have hc : centerFn 34 = ((69 / 26 : ℚ) : ℝ) := by
    rw [centerFn, binEdge, binEdge]
    push_cast
    norm_num
  rw [hc]
  exact wigner_pdf_le_of (69 / 26) (207000000 / 23083879) (7842375305691 / 1000000000) (2911753 / 1000000000) 31 (by norm_num)
    (by norm_num) (by norm_num) (by norm_num)
    (by norm_num [Finset.sum_range_succ, Nat.factorial]) (by norm_num)

theorem wigner_bound_35 :
    wigner_pdf (centerFn 35) ≤ ((1819433 / 1000000000 : ℚ) : ℝ) := by
  have hc : centerFn 35 = ((71 / 26 : ℚ) : ℝ) := by
    rw [centerFn, binEdge, binEdge]
    push_cast
    norm_num
  rw [hc]
  exact wigner_pdf_le_of (71 / 26) (5041000000 / 530929217) (2657753232611 / 200000000) (1819433 / 1000000000) 32 (by norm_num)
    (by norm_num) (by norm_num) (by norm_num)
    (by norm_num [Finset.sum_range_succ, Nat.factorial]) (by norm_num)

theorem wigner_bound_36 :
    wigner_pdf (centerFn 36) ≤ ((111811 / 100000000 : ℚ) : ℝ) := by
  have hc : centerFn 36 = ((73 / 26 : ℚ) : ℝ) := by
    rw [centerFn, binEdge, binEdge]
    push_cast
    norm_num
  rw [hc]
  exact wigner_pdf_le_of (73 / 26) (5329000000 / 530929217) (22859441311387 / 1000000000) (111811 / 100000000) 33 (by norm_num)
    (by norm_num) (by norm_num) (by norm_num)
    (by norm_num [Finset.sum_range_succ, Nat.factorial]) (by norm_num)

theorem wigner_bound_37 :
    wigner_pdf (centerFn 37) ≤ ((675829 / 1000000000 : ℚ) : ℝ) := by
  have hc : centerFn 37 = ((75 / 26 : ℚ) : ℝ) := by
    rw [centerFn, binEdge, binEdge]
    push_cast
    norm_num
  rw [hc]
  exact wigner_pdf_le_of (75 / 26) (5625000000 / 530929217) (1995999757331 / 50000000) (675829 / 1000000000) 34 (by norm_num)
    (by norm_num) (by norm_num) (by norm_num)
    (by norm_num [Finset.sum_range_succ, Nat.factorial]) (by norm_num)

theorem wigner_bound_38 :
    wigner_pdf (centerFn 38) ≤ ((50227 / 125000000 : ℚ) : ℝ) := by
  have hc : centerFn 38 = ((77 / 26 : ℚ) : ℝ) := by
    rw [centerFn, binEdge, binEdge]
    push_cast
    norm_num
  rw [hc]
  exact wigner_pdf_le_of (77 / 26) (847000000 / 75847031) (552903441659 / 7812500) (50227 / 125000000) 35 (by norm_num)
    (by norm_num) (by norm_num) (by norm_num)
    (by norm_num [Finset.sum_range_succ, Nat.factorial]) (by norm_num)

theorem theory_sum_lt_13 :
    ∑ i ∈ Finset.range 39, wigner_pdf (centerFn i) < 13 := by
  have hb : ∀ i ∈ Finset.range 39, wigner_pdf (centerFn i) ≤ ((RB i : ℚ) : ℝ) := by
    intro i hi
    have hi39 : i < 39 := Finset.mem_range.mp hi
    interval_cases i
    · simpa [RB] using wigner_bound_0
    · simpa [RB] using wigner_bound_1
    · simpa [RB] using wigner_bound_2
    · simpa [RB] using wigner_bound_3
    · simpa [RB] using wigner_bound_4
    · simpa [RB] using wigner_bound_5
    · simpa [RB] using wigner_bound_6
    · simpa [RB] using wigner_bound_7
    · simpa [RB] using wigner_bound_8
    · simpa [RB] using wigner_bound_9
    · simpa [RB] using wigner_bound_10
    · simpa [RB] using wigner_bound_11
    · simpa [RB] using wigner_bound_12
    · simpa [RB] using wigner_bound_13
    · simpa [RB] using wigner_bound_14
    · simpa [RB] using wigner_bound_15
    · simpa [RB] using wigner_bound_16
    · simpa [RB] using wigner_bound_17
    · simpa [RB] using wigner_bound_18
    · simpa [RB] using wigner_bound_19
    · simpa [RB] using wigner_bound_20
    · simpa [RB] using wigner_bound_21
    · simpa [RB] using wigner_bound_22
    · simpa [RB] using wigner_bound_23
    · simpa [RB] using wigner_bound_24
    · simpa [RB] using wigner_bound_25
    · simpa [RB] using wigner_bound_26
    · simpa [RB] using wigner_bound_27
    · simpa [RB] using wigner_bound_28
    · simpa [RB] using wigner_bound_29
    · simpa [RB] using wigner_bound_30
    · simpa [RB] using wigner_bound_31
    · simpa [RB] using wigner_bound_32
    · simpa [RB] using wigner_bound_33
    · simpa [RB] using wigner_bound_34
    · simpa [RB] using wigner_bound_35
    · simpa [RB] using wigner_bound_36
    · simpa [RB] using wigner_bound_37
    · simpa [RB] using wigner_bound_38
  have hs := Finset.sum_le_sum hb
  have hcast : ∑ i ∈ Finset.range 39, ((RB i : ℚ) : ℝ) =
      ((∑ i ∈ Finset.range 39, RB i : ℚ) : ℝ) := by
    push_cast
    rfl
  have hq : (∑ i ∈ Finset.range 39, RB i : ℚ) < 13 := by
    norm_num [Finset.sum_range_succ, RB]
  calc ∑ i ∈ Finset.range 39, wigner_pdf (centerFn i)
      ≤ ∑ i ∈ Finset.range 39, ((RB i : ℚ) : ℝ) := hs
    _ < 13 := by
        rw [hcast]
        exact_mod_cast hq

/- ### Positivity of the divergence -/

theorem eps_pos : (0 : ℝ) < eps := by
  rw [eps]
  norm_num

theorem divergence_pos (s : List ℝ) (hT : 0 < totalCount s) : 0 < divergence s := by
  have hppos : ∀ i, 0 < histDensity s i + eps :=
    fun i => add_pos_of_nonneg_of_pos (histDensity_nonneg s i) eps_pos
  have hqpos : ∀ i, 0 < wigner_pdf (centerFn i) + eps :=
    fun i => add_pos_of_nonneg_of_pos (wigner_pdf_nonneg _) eps_pos
  have hre : divergence s = ∑ i ∈ Finset.range 39, (histDensity s i + eps) *
      Real.log ((histDensity s i + eps) / (wigner_pdf (centerFn i) + eps)) := by
    rw [divergence_eq]
    exact Finset.sum_congr rfl fun i _ => by rw [rel_entr, if_pos ⟨hppos i, hqpos i⟩]
  have hsp : ∑ i ∈ Finset.range 39, (histDensity s i + eps) = 13 + 39 * eps := by
    rw [Finset.sum_add_distrib, sum_histDensity s hT, Finset.sum_const, Finset.card_range,
      nsmul_eq_mul]
    push_cast
    ring
  have hsq : ∑ i ∈ Finset.range 39, (wigner_pdf (centerFn i) + eps) < 13 + 39 * eps := by
    rw [Finset.sum_add_distrib, Finset.sum_const, Finset.card_range, nsmul_eq_mul]
    have h13 := theory_sum_lt_13
    push_cast
    linarith
  have hQpos : 0 < ∑ i ∈ Finset.range 39, (wigner_pdf (centerFn i) + eps) :=
    Finset.sum_pos (fun i _ => hqpos i) ⟨0, Finset.mem_range.mpr (by norm_num)⟩
  have hPpos : 0 < ∑ i ∈ Finset.range 39, (histDensity s i + eps) := by
    rw [hsp]
    have := eps_pos
    linarith
  have hlog := log_sum_inequality 39 (fun i => histDensity s i + eps)
    (fun i => wigner_pdf (centerFn i) + eps) (by norm_num)
    (fun i _ => hppos i) (fun i _ => hqpos i)
  simp only at hlog
  have hPQ : 1 < (∑ i ∈ Finset.range 39, (histDensity s i + eps)) /
      (∑ i ∈ Finset.range 39, (wigner_pdf (centerFn i) + eps)) := by
    rw [one_lt_div hQpos, hsp]
    exact hsq
  have hlogpos : 0 < Real.log ((∑ i ∈ Finset.range 39, (histDensity s i + eps)) /
      (∑ i ∈ Finset.range 39, (wigner_pdf (centerFn i) + eps))) := Real.log_pos hPQ
  calc (0 : ℝ) < (∑ i ∈ Finset.range 39, (histDensity s i + eps)) *
        Real.log ((∑ i ∈ Finset.range 39, (histDensity s i + eps)) /
          (∑ i ∈ Finset.range 39, (wigner_pdf (centerFn i) + eps))) :=
        mul_pos hPpos hlogpos
    _ ≤ ∑ i ∈ Finset.range 39, (histDensity s i + eps) *
        Real.log ((histDensity s i + eps) / (wigner_pdf (centerFn i) + eps)) := hlog
    _ = divergence s := hre.symm

/- ### Bridging the float-faithful layer and the exact-real layer -/

theorem optSum_map_some (l : List ℝ) : optSum (l.map some) = some l.sum := by
  induction l with
  | nil => rfl
  | cons a t ih =>
      rw [List.map_cons]
      show optAdd (some a) (optSum (t.map some)) = some (a :: t).sum
      rw [ih, List.sum_cons]
      rfl

theorem optSum_eq_none_of_mem (l : List (Option ℝ)) (h : none ∈ l) :
    optSum l = none := by
  induction l with
  | nil => simp at h
  | cons a t ih =>
      show optAdd a (optSum t) = none
      rcases List.mem_cons.mp h with h1 | h2
      · rw [← h1]
        rfl
      · rw [ih h2]
        cases a <;> rfl

theorem binCountFP_map_some (u : List ℝ) (i : ℕ) :
    binCountFP (u.map some) i = binCount u i := by
  rw [binCountFP, binCount]
  by_cases h : i < 38
  · rw [if_pos h, if_pos h, List.countP_map]
    rfl
  · rw [if_neg h, if_neg h, List.countP_map]
    rfl

theorem totalCountFP_map_some (u : List ℝ) :
    totalCountFP (u.map some) = totalCount u := by
  rw [totalCountFP, totalCount]
  exact Finset.sum_congr rfl fun i _ => binCountFP_map_some u i

theorem histDensityFP_map_some (u : List ℝ) (i : ℕ) (hT : totalCount u ≠ 0) :
    histDensityFP (u.map some) i = some (histDensity u i) := by
  rw [histDensityFP, totalCountFP_map_some, binCountFP_map_some, if_neg hT, histDensity]

theorem totalCountFP_eq_zero (s : List (Option ℝ)) (h : ∀ x ∈ s, x = none) :
    totalCountFP s = 0 := by
  rw [totalCountFP]
  refine Finset.sum_eq_zero fun i _ => ?_
  rw [binCountFP]
  by_cases hi : i < 38
  · rw [if_pos hi, List.countP_eq_zero]
    intro a ha
    rw [h a ha]
    simp
  · rw [if_neg hi, List.countP_eq_zero]
    intro a ha
    rw [h a ha]
    simp

theorem histListFP_eq_none (s : List (Option ℝ)) (hT : totalCountFP s = 0) :
    histListFP s = List.replicate 39 none := by
  rw [histListFP]
  have h : ∀ i ∈ List.range 39, histDensityFP s i = (fun _ : ℕ => (none : Option ℝ)) i :=
    fun i _ => by rw [histDensityFP, if_pos hT]
  rw [List.map_congr_left h, List.map_const', List.length_range]

theorem histListFP_map_some (u : List ℝ) (hT : totalCount u ≠ 0) :
    histListFP (u.map some) = (histList u).map some := by
  rw [histListFP, histList, List.map_map]
  exact List.map_congr_left fun i _ => by
    rw [Function.comp_apply, histDensityFP_map_some u i hT]

theorem relEntrFP_some_of_pos (a b : ℝ) (ha : 0 < a) (hb : 0 < b) :
    relEntrFP (some a) (some b) = some (rel_entr a b) := by
  show (if 0 < a ∧ 0 < b then some (a * Real.log (a / b))
      else if a = 0 ∧ 0 ≤ b then some 0 else none) = some (rel_entr a b)
  rw [if_pos ⟨ha, hb⟩, rel_entr, if_pos ⟨ha, hb⟩]

theorem unfoldFP_map_some (data : List ℝ) (hm : mean (npDiff data) ≠ 0) :
    unfoldFP data = (unfold_ data).map some := by
  rw [unfoldFP, unfold_]
  by_cases h : (npDiff data).length = 0
  · rw [if_pos h, if_pos h]
    rfl
  · rw [if_neg h, if_neg h, List.map_map]
    exact List.map_congr_left fun d _ => by rw [if_neg hm, Function.comp_apply]

theorem divergenceFP_map_some (u : List ℝ) (hT : 0 < totalCount u) :
    divergenceFP (u.map some) = some (divergence u) := by
  rw [divergenceFP, histListFP_map_some u hT.ne', histList, theoryList, centersList,
    List.map_map, List.map_map, List.zipWith_map, List.zipWith_same]
  have hcong : ∀ i ∈ List.range 39,
      relEntrFP (optAdd ((some ∘ histDensity u) i) (some eps))
          (some ((wigner_pdf ∘ centerFn) i + eps)) =
        (some ∘ fun j => rel_entr (histDensity u j + eps) (wigner_pdf (centerFn j) + eps)) i := by
    intro i _
    have h1 : optAdd (some (histDensity u i)) (some eps) = some (histDensity u i + eps) := rfl
    rw [Function.comp_apply, Function.comp_apply, Function.comp_apply, h1,
      relEntrFP_some_of_pos _ _
        (add_pos_of_nonneg_of_pos (histDensity_nonneg u i) eps_pos)
        (add_pos_of_nonneg_of_pos (wigner_pdf_nonneg _) eps_pos)]
  rw [List.map_congr_left hcong, ← List.map_map, optSum_map_some, list_sum_range_map,
    ← divergence_eq]

theorem histIntegralFP_map_some (u : List ℝ) (hT : totalCount u ≠ 0) :
    histIntegralFP (u.map some) =
      some (∑ i ∈ Finset.range 39,
        histDensity u i * (binEdge (i + 1) - binEdge i)) := by
  rw [histIntegralFP]
  have hcong : ∀ i ∈ List.range 39,
      (histDensityFP (u.map some) i).map (fun d => d * (binEdge (i + 1) - binEdge i)) =
        (some ∘ fun j => histDensity u j * (binEdge (j + 1) - binEdge j)) i := by
    intro i _
    rw [histDensityFP_map_some u i hT, Function.comp_apply]
    rfl
  rw [List.map_congr_left hcong, ← List.map_map, optSum_map_some, list_sum_range_map]

theorem npDiff_replicate (n : ℕ) (x : ℝ) :
    npDiff (List.replicate (n + 1) x) = List.replicate n 0 := by
  induction n with
  | zero => rfl
  | succ n ih =>
      have h : List.replicate (n + 2) x = x :: x :: List.replicate n x := by
        rw [List.replicate_succ, List.replicate_succ]
      rw [h, npDiff_cons_cons, ← List.replicate_succ x n, ih, sub_self,
        ← List.replicate_succ]

theorem unfoldFP_replicate_one :
    unfoldFP (List.replicate 50 (1 : ℝ)) = List.replicate 49 none := by
  have hd : npDiff (List.replicate 50 (1 : ℝ)) = List.replicate 49 0 :=
    npDiff_replicate 49 1
  have hm : mean (List.replicate 49 (0 : ℝ)) = 0 := by
    rw [mean, List.sum_replicate]
    simp
  rw [unfoldFP, hd, if_neg (by simp), List.map_replicate, if_pos hm]

theorem unfoldFP_pair_one : unfoldFP [(1 : ℝ), 1] = [none] := by
  have hd : npDiff [(1 : ℝ), 1] = [0] := by
    rw [npDiff]
    norm_num
  have hm : mean [(0 : ℝ)] = 0 := by
    rw [mean]
    simp
  rw [unfoldFP, hd, if_neg (by simp), List.map_cons, List.map_nil, if_pos hm]

/- ### Scan / DFT structural lemmas -/

theorem quantumFilter_length (n : ℕ) : (quantumFilter n).length = n := by
  simp [quantumFilter]

theorem dft_length (x : List ℂ) : (dft x).length = x.length := by
  simp [dft]

theorem transformed_length (data : List ℝ) : (transformed data).length = data.length := by
  simp [transformed, dft, quantumFilter]

theorem zipWith_mul_replicate_zero (n : ℕ) (l : List ℂ) :
    List.zipWith (fun (d : ℝ) (f : ℂ) => (d : ℂ) * f) (List.replicate n 0) l =
      List.replicate (min n l.length) 0 := by
  induction n generalizing l with
  | zero => simp
  | succ n ih =>
      cases l with
      | nil => simp
      | cons b m => simp [List.replicate_succ, ih, Nat.succ_min_succ]

theorem getD_replicate_zero (n i : ℕ) : (List.replicate n (0 : ℂ)).getD i 0 = 0 := by
  rcases lt_or_ge i n with h | h
  · simp [List.getD, List.getElem?_replicate, h]
  · have h' : ¬ i < n := Nat.not_lt.mpr h
    simp [List.getD, List.getElem?_replicate, h']

theorem dft_replicate_zero (n : ℕ) : dft (List.replicate n 0) = List.replicate n 0 := by
  rw [dft]
  simp only [List.length_replicate]
  have h : ∀ k : ℕ, ((List.range n).map fun t : ℕ =>
      (List.replicate n (0 : ℂ)).getD t 0 *
        Complex.exp (-(2 * (Real.pi : ℂ) * Complex.I * (k : ℂ) * (t : ℂ)) / (n : ℂ))).sum = 0 := by
    intro k
    rw [list_sum_range_map]
    exact Finset.sum_eq_zero fun t _ => by rw [getD_replicate_zero]; ring
  calc (List.range n).map (fun k : ℕ => ((List.range n).map fun t : ℕ =>
          (List.replicate n (0 : ℂ)).getD t 0 *
            Complex.exp (-(2 * (Real.pi : ℂ) * Complex.I * (k : ℂ) * (t : ℂ)) / (n : ℂ))).sum)
      = (List.range n).map fun _ => (0 : ℂ) := List.map_congr_left fun k _ => h k
    _ = List.replicate n 0 := by simp [List.map_const']

theorem filter_pos_replicate_zero (n : ℕ) :
    (List.replicate n (0 : ℝ)).filter (fun x => decide (0 < x)) = [] := by
  induction n with
  | zero => simp
  | succ n ih => simp [List.replicate_succ, ih]

theorem transformed_replicate_zero (n : ℕ) :
    transformed (List.replicate n 0) = List.replicate n 0 := by
  rw [transformed]
  simp only [List.length_replicate]
  rw [zipWith_mul_replicate_zero, quantumFilter_length, min_self, dft_replicate_zero]
  simp

theorem transformed_impulse50 : transformed impulse50 = List.replicate 50 1 := by
  have hlen : impulse50.length = 50 := by simp [impulse50]
  set c : ℂ :=
    ((-1 : ℝ) : ℂ) * Complex.exp (Complex.I * (resonance_eta : ℂ) / (((0 : ℕ) : ℂ) + 1)) with hc
  have hqf : quantumFilter 50 =
      Complex.exp (Complex.I * (resonance_eta : ℂ) / (((0 : ℕ) : ℂ) + 1)) ::
        (List.range 49).map (fun t : ℕ =>
          Complex.exp (Complex.I * (resonance_eta : ℂ) / (((Nat.succ t : ℕ) : ℂ) + 1))) := by
    rw [quantumFilter, show (50 : ℕ) = 49 + 1 from rfl, List.range_succ_eq_map,
      List.map_cons, List.map_map]
    rfl
  have hz : List.zipWith (fun (d : ℝ) (f : ℂ) => (d : ℂ) * f) impulse50
      (quantumFilter impulse50.length) = c :: List.replicate 49 0 := by
    rw [hlen, hqf, impulse50, List.zipWith_cons_cons, zipWith_mul_replicate_zero]
    simp [hc]
  rw [transformed, hz]
  have hzlen : (c :: List.replicate 49 (0 : ℂ)).length = 50 := by simp
  rw [dft, hzlen]
  have habs : Complex.abs c = 1 := by
    rw [hc, map_mul, Complex.abs_exp]
    have hre : (Complex.I * (resonance_eta : ℂ) / (((0 : ℕ) : ℂ) + 1)).re = 0 := by
      simp [Complex.div_re, Complex.mul_re]
    rw [hre]
    simp
  have hdft : ∀ k : ℕ, ((List.range 50).map fun t : ℕ =>
      (c :: List.replicate 49 (0 : ℂ)).getD t 0 *
        Complex.exp (-(2 * (Real.pi : ℂ) * Complex.I * (k : ℂ) * (t : ℂ)) /
          ((50 : ℕ) : ℂ))).sum = c := by
    intro k
    rw [list_sum_range_map]
    rw [Finset.sum_eq_single_of_mem 0 (Finset.mem_range.mpr (by norm_num))]
    · simp
    · intro t _ ht
      cases t with
      | zero => exact absurd rfl ht
      | succ s =>
          have h0 : (c :: List.replicate 49 (0 : ℂ)).getD (s + 1) 0 = 0 := by
            rw [List.getD_cons_succ]
            exact getD_replicate_zero 49 s
          rw [h0, zero_mul]
  calc ((List.range 50).map fun k : ℕ => ((List.range 50).map fun t : ℕ =>
          (c :: List.replicate 49 (0 : ℂ)).getD t 0 *
            Complex.exp (-(2 * (Real.pi : ℂ) * Complex.I * (k : ℂ) * (t : ℂ)) /
              ((50 : ℕ) : ℂ))).sum).map Complex.abs
      = ((List.range 50).map fun _ => c).map Complex.abs := by
        rw [List.map_congr_left fun k _ => hdft k]
    _ = List.replicate 50 1 := by
        rw [List.map_map]
        have hcomp : (⇑Complex.abs ∘ fun _ : ℕ => c) = fun _ : ℕ => (1 : ℝ) :=
          funext fun _ => habs
        rw [hcomp, List.map_const', List.length_range]

theorem cleanData_replicate_one :
    cleanData (List.replicate 50 (1 : ℝ)) = List.replicate 50 1 := by
  have hf : (List.replicate 50 (1 : ℝ)).filter (fun x => decide (0 < x)) =
      List.replicate 50 1 := by
    refine List.filter_eq_self.mpr ?_
    intro a ha
    have : a = 1 := List.eq_of_mem_replicate ha
    simp [this]
  have hp := cleanData_perm (List.replicate 50 (1 : ℝ))
  rw [hf] at hp
  exact List.perm_replicate.mp hp

theorem analyze_replicate_one_ne_none (label : String) :
    analyze_integrity (List.replicate 50 (1 : ℝ)) label ≠ none := by
  have h1 : ¬ (cleanData (List.replicate 50 (1 : ℝ))).length < 50 := by
    rw [cleanData_replicate_one, List.length_replicate]
    norm_num
  simp only [analyze_integrity]
  rw [if_neg h1]
  exact Option.some_ne_none _

/- ### Claims C9, C10, C3, C6, C2 -/

/-- Claim C9: `analyze_integrity` is deterministic — two calls with equal
sample and equal label give identical results.  In this embedding the
operation is a pure function of its two arguments (the Python method reads
only constants set once in `__init__` and never mutated), so equal inputs
give equal outputs. -/
theorem C9_analyze_integrity_deterministic (input₁ input₂ : List ℝ)
    (label₁ label₂ : String) (h₁ : input₁ = input₂) (h₂ : label₁ = label₂) :
    analyze_integrity input₁ label₁ = analyze_integrity input₂ label₂ := by
  rw [h₁, h₂]

/-- Witness for C9 at the concrete input `[1]`, label `"Muestra"`. -/
theorem C9_witness :
    analyze_integrity [(1 : ℝ)] "Muestra" = analyze_integrity [(1 : ℝ)] "Muestra" :=
  C9_analyze_integrity_deterministic [(1 : ℝ)] [(1 : ℝ)] ("Muestra") ("Muestra") rfl rfl

/-- Claim C10: `analyze_integrity` is invariant under permutation of its
input, because the strictly-positive values are sorted before any further
processing, so the computation depends only on the multiset of inputs. -/
theorem C10_analyze_integrity_perm_invariant (s s' : List ℝ) (label : String)
    (h : s.Perm s') : analyze_integrity s label = analyze_integrity s' label := by
  have hc : cleanData s = cleanData s' := by
    refine List.eq_of_perm_of_sorted ?_ (cleanData_sorted s) (cleanData_sorted s')
    exact (cleanData_perm s).trans ((h.filter _).trans (cleanData_perm s').symm)
  unfold analyze_integrity
  rw [hc]

/-- Witness for C10 at the concrete permuted pair `[1, 2]` and `[2, 1]`. -/
theorem C10_witness :
    analyze_integrity [(1 : ℝ), 2] "Muestra" = analyze_integrity [(2 : ℝ), 1] "Muestra" :=
  C10_analyze_integrity_perm_invariant [(1 : ℝ), 2] [(2 : ℝ), 1] "Muestra"
    (List.Perm.swap 2 1 [])

/-- Claim C3 names a spec requirement the code does not meet (a code bug).
At the concrete cleaned sample `[5]` (fewer than 2 elements, the path the
spec describes as reachable only with the ≥50 threshold bypassed), the
unfolding step does return the empty spacing list without dividing by an
undefined mean — that half of the claim is honored.  But the downstream
density histogram of the empty sequence is NOT zero-filled: numpy's
`density=True` normalization divides the zero counts by `n.sum() = 0`,
so every density entry is non-finite (NaN-filled array).  In the
float-faithful model every bin is `none`, not `some 0`. -/
theorem C3_code_bug_nan_histogram :
    unfold_ [(5 : ℝ)] = [] ∧ unfoldFP [(5 : ℝ)] = [] ∧
    totalCountFP (unfoldFP [(5 : ℝ)]) = 0 ∧
    histListFP (unfoldFP [(5 : ℝ)]) = List.replicate 39 none := by
  have h1 : npDiff [(5 : ℝ)] = [] := rfl
  have h2 : unfoldFP [(5 : ℝ)] = [] := by
    rw [unfoldFP, h1]
    simp
  have h3 : totalCountFP (unfoldFP [(5 : ℝ)]) = 0 := by
    rw [h2]
    exact totalCountFP_eq_zero [] (by simp)
  refine ⟨?_, h2, h3, histListFP_eq_none _ h3⟩
  rw [unfold_, h1]
  simp

/-- Claim C6: for a sorted cleaned sample of length at least 2 whose
consecutive differences are not all zero, the unfolded spacings have
length `len - 1` and mean exactly 1. -/
theorem C6_unfold_mean_one (data : List ℝ) (hs : data.Sorted (· ≤ ·))
    (h2 : 2 ≤ data.length) (hnz : ∃ d ∈ npDiff data, d ≠ 0) :
    (unfold_ data).length = data.length - 1 ∧ mean (unfold_ data) = 1 := by
  have hlen : (npDiff data).length = data.length - 1 := npDiff_length data
  have hne : (npDiff data).length ≠ 0 := by omega
  have hsum : (npDiff data).sum ≠ 0 := by
    intro h0
    rcases hnz with ⟨d, hd, hdne⟩
    exact hdne (list_sum_eq_zero_of_nonneg (npDiff_nonneg hs) h0 d hd)
  have hu : unfold_ data = (npDiff data).map fun d => d / mean (npDiff data) := by
    rw [unfold_, if_neg hne]
  constructor
  · rw [hu, List.length_map, hlen]
  · have hm : mean (npDiff data) ≠ 0 := by
      rw [mean]
      exact div_ne_zero hsum (by exact_mod_cast hne)
    rw [hu, mean, list_sum_map_div, List.length_map, mean]
    field_simp

/-- Witness for C6 at the concrete sorted sample `[1, 2, 4]`. -/
theorem C6_witness :
    (unfold_ [(1 : ℝ), 2, 4]).length = [(1 : ℝ), 2, 4].length - 1 ∧
      mean (unfold_ [(1 : ℝ), 2, 4]) = 1 :=
  C6_unfold_mean_one [(1 : ℝ), 2, 4]
    (by simp [List.sorted_cons]; norm_num)
    (by simp)
    ⟨1, by simp [npDiff]; norm_num, by norm_num⟩

/-- Counterexample to claim C5 as stated: the sorted cleaned sample
`[1, 1]` has a non-empty unfolded spacing sequence, but its single spacing
is `0 / mean([0]) = 0.0/0.0 = NaN` in the program, the histogram's
in-range total is 0, every density entry is non-finite, and the sum of
densities times widths is NaN — it does not integrate to 1. -/
theorem C5_counterexample :
    List.Sorted (· ≤ ·) [(1 : ℝ), 1] ∧ 2 ≤ ([(1 : ℝ), 1]).length ∧
    unfoldFP [(1 : ℝ), 1] = [none] ∧
    histIntegralFP (unfoldFP [(1 : ℝ), 1]) = none := by
  refine ⟨by simp [List.sorted_cons], by simp, unfoldFP_pair_one, ?_⟩
  rw [unfoldFP_pair_one, histIntegralFP]
  apply optSum_eq_none_of_mem
  have hT : totalCountFP [(none : Option ℝ)] = 0 := totalCountFP_eq_zero _ (by simp)
  have h : ∀ i ∈ List.range 39,
      (histDensityFP [(none : Option ℝ)] i).map
          (fun d => d * (binEdge (i + 1) - binEdge i)) =
        (fun _ : ℕ => (none : Option ℝ)) i :=
    fun i _ => by rw [histDensityFP, if_pos hT]; rfl
  rw [List.map_congr_left h, List.map_const', List.length_range]
  exact List.mem_replicate.mpr ⟨by norm_num, rfl⟩

/-- Claim C5, amended: for every non-empty unfolded spacing sequence with
non-degenerate spacings (a sorted cleaned sample of length ≥ 2 whose
consecutive differences are not all zero), the empirical density histogram
over the 39 equal-width bins of [0, 3] integrates to 1 — the sum of bin
densities times bin widths equals 1, both in the exact-real model and in
the float-faithful model (no division by zero occurs on this domain).
Degenerate spacings instead make the histogram NaN-filled. -/
theorem C5_amended_histogram_integrates_to_one (data : List ℝ)
    (hs : data.Sorted (· ≤ ·)) (h2 : 2 ≤ data.length)
    (hnd : ∃ d ∈ npDiff data, d ≠ 0) :
    (∑ i ∈ Finset.range 39,
        histDensity (unfold_ data) i * (binEdge (i + 1) - binEdge i) = 1) ∧
    histIntegralFP (unfoldFP data) = some 1 := by
  have hT := totalCount_unfold_pos data hs h2
  have hsum1 : ∑ i ∈ Finset.range 39,
      histDensity (unfold_ data) i * (binEdge (i + 1) - binEdge i) = 1 := by
    have h1 : ∀ i ∈ Finset.range 39,
        histDensity (unfold_ data) i * (binEdge (i + 1) - binEdge i) =
          histDensity (unfold_ data) i * (3 / 39) :=
      fun i _ => by rw [binEdge_width]
    rw [Finset.sum_congr rfl h1, ← Finset.sum_mul, sum_histDensity _ hT]
    norm_num
  refine ⟨hsum1, ?_⟩
  have hlen : (npDiff data).length ≠ 0 := by
    rw [npDiff_length]
    omega
  have hsumd : (npDiff data).sum ≠ 0 := by
    intro h0
    rcases hnd with ⟨d, hd, hdne⟩
    exact hdne (list_sum_eq_zero_of_nonneg (npDiff_nonneg hs) h0 d hd)
  have hm : mean (npDiff data) ≠ 0 := by
    rw [mean]
    exact div_ne_zero hsumd (by exact_mod_cast hlen)
  rw [unfoldFP_map_some data hm, histIntegralFP_map_some _ hT.ne', hsum1]

/-- Witness for the amended C5 at the concrete sorted sample `[1, 2, 4]`. -/
theorem C5_amended_witness :
    (∑ i ∈ Finset.range 39,
        histDensity (unfold_ [(1 : ℝ), 2, 4]) i * (binEdge (i + 1) - binEdge i) = 1) ∧
    histIntegralFP (unfoldFP [(1 : ℝ), 2, 4]) = some 1 :=
  C5_amended_histogram_integrates_to_one [(1 : ℝ), 2, 4]
    (by simp [List.sorted_cons]; norm_num) (by simp)
    ⟨1, by simp [npDiff]; norm_num, by norm_num⟩

/-- Counterexample to claim C2 as stated: `impulse50 = [-1, 0, ..., 0]`
has no strictly positive element (so far fewer than 50), yet
`scan_resonance` does NOT return the no-result signal, because the
50-element threshold in `scan_resonance` is applied to the *transformed*
magnitude sequence (here 50 copies of `1`), not to the raw sample. -/
theorem C2_counterexample :
    ((impulse50.filter fun x => decide (0 < x)).length < 50) ∧
      scan_resonance impulse50 ≠ none := by
  constructor
  · have h : impulse50.filter (fun x => decide (0 < x)) = [] := by
      rw [impulse50, List.filter_cons]
      have h1 : (decide ((0 : ℝ) < -1)) = false := by norm_num
      rw [h1]
      simp only [Bool.false_eq_true, if_false]
      exact filter_pos_replicate_zero 49
    rw [h]
    norm_num
  · rw [scan_resonance, transformed_impulse50]
    exact analyze_replicate_one_ne_none _

/-- Claim C2, amended: `analyze_integrity` returns the no-result signal
whenever the sample's strictly-positive filtered subsequence has fewer
than 50 elements; `scan_resonance` returns the no-result signal whenever
its *transformed* sequence does — in particular whenever the raw sample
has fewer than 50 elements (the transform preserves length). -/
theorem C2_amended_insufficient_sample :
    (∀ (input : List ℝ) (label : String),
        (input.filter fun x => decide (0 < x)).length < 50 →
        analyze_integrity input label = none) ∧
    (∀ data : List ℝ, data.length < 50 → scan_resonance data = none) := by
  constructor
  · intro input label h
    have hl : (cleanData input).length < 50 := by
      rw [cleanData_length]
      exact h
    simp only [analyze_integrity]
    rw [if_pos hl]
  · intro data h
    have hl : (cleanData (transformed data)).length < 50 := by
      calc (cleanData (transformed data)).length
          = ((transformed data).filter fun x => decide (0 < x)).length :=
            cleanData_length _
        _ ≤ (transformed data).length := List.length_filter_le _ _
        _ = data.length := transformed_length data
        _ < 50 := h
    rw [scan_resonance]
    simp only [analyze_integrity]
    rw [if_pos hl]

/-- Witness for the amended C2 at the concrete inputs `[-1]` and `[1]`. -/
theorem C2_amended_witness :
    analyze_integrity [(-1 : ℝ)] "Muestra" = none ∧ scan_resonance [(1 : ℝ)] = none :=
  ⟨C2_amended_insufficient_sample.1 [(-1 : ℝ)] "Muestra"
      (by rw [List.filter_cons]; norm_num),
    C2_amended_insufficient_sample.2 [(1 : ℝ)] (by norm_num)⟩

/-- Counterexample to claim C4 as stated: the label `scan_resonance`
passes to the scorer is the Spanish f-string `"Resonancia (Eta=5.26)"`,
not `"Resonance scan (eta=5.26)"`; at the concrete input `impulse50` both
calls succeed and their results differ (in the label field). -/
theorem C4_counterexample :
    scan_resonance impulse50 ≠
      analyze_integrity (transformed impulse50) "Resonance scan (eta=5.26)" := by
  rw [scan_resonance, transformed_impulse50]
  have h1 : ¬ (cleanData (List.replicate 50 (1 : ℝ))).length < 50 := by
    rw [cleanData_replicate_one, List.length_replicate]
    norm_num
  simp only [analyze_integrity]
  rw [if_neg h1, if_neg h1]
  intro h
  have := Option.some.inj h
  have hlabel := congrArg ScoreResult.label this
  simp only at hlabel
  exact absurd hlabel (by decide)

/-- Claim C4, amended: for every sample, `scan_resonance` multiplies
element `t` by the phase factor `exp(i·5.26/(t+1))`, takes the magnitude
of the DFT of the result — a nonnegative real sequence of the same length
`n` — and returns exactly `analyze_integrity` of that transformed sequence
with label `"Resonancia (Eta=5.26)"` (the code's actual f-string label). -/
theorem C4_amended_scan_delegates (data : List ℝ) :
    scan_resonance data =
      analyze_integrity
        ((dft (List.zipWith (fun (d : ℝ) (f : ℂ) => (d : ℂ) * f) data
          (quantumFilter data.length))).map Complex.abs) "Resonancia (Eta=5.26)" ∧
    (transformed data).length = data.length ∧
    (transformed data).Forall (fun x => 0 ≤ x) := by
  refine ⟨rfl, transformed_length data, ?_⟩
  rw [List.forall_iff_forall_mem]
  intro x hx
  rw [transformed] at hx
  rcases List.mem_map.mp hx with ⟨z, _, hz⟩
  rw [← hz]
  exact Complex.abs.nonneg z

/-- Claim C8: on a constant-zero sample of length `n ≥ 50`, the transformed
magnitude sequence is all-zero, its strictly-positive filtering is empty
(fewer than 50 elements), and `scan_resonance` returns the no-result
signal. -/
theorem C8_scan_zero_sample (n : ℕ) (hn : 50 ≤ n) :
    transformed (List.replicate n 0) = List.replicate n 0 ∧
    ((transformed (List.replicate n 0)).filter fun x => decide (0 < x)).length < 50 ∧
    scan_resonance (List.replicate n 0) = none := by
  refine ⟨transformed_replicate_zero n, ?_, ?_⟩
  · rw [transformed_replicate_zero, filter_pos_replicate_zero]
    norm_num
  · rw [scan_resonance]
    have hl : (cleanData (transformed (List.replicate n 0))).length < 50 := by
      rw [cleanData_length, transformed_replicate_zero, filter_pos_replicate_zero]
      norm_num
    simp only [analyze_integrity]
    rw [if_pos hl]

/-- Witness for C8 at the concrete length `n = 50`. -/
theorem C8_witness :
    50 ≤ 50 ∧
      (transformed (List.replicate 50 0) = List.replicate 50 0 ∧
        ((transformed (List.replicate 50 0)).filter fun x => decide (0 < x)).length < 50 ∧
        scan_resonance (List.replicate 50 0) = none) :=
  ⟨by norm_num, C8_scan_zero_sample 50 (by norm_num)⟩

/- ### Evaluation of `analyze_integrity` on the concrete valid sample -/

theorem cleanData_sample50_length : (cleanData sample50).length = 50 := by
  rw [cleanData_length]
  have h : sample50.filter (fun x => decide (0 < x)) = sample50 := by
    refine List.filter_eq_self.mpr ?_
    intro a ha
    rcases List.mem_map.mp ha with ⟨n, _, hn⟩
    rw [← hn]
    simp only [decide_eq_true_eq]
    positivity
  rw [h, sample50, List.length_map, List.length_range]

theorem analyze_sample50 : analyze_integrity sample50 ("Muestra") = some result50 := by
  have h1 : ¬ (cleanData sample50).length < 50 := by
    rw [cleanData_sample50_length]
    norm_num
  simp only [analyze_integrity]
  rw [if_neg h1]
  rfl

/-- Claim C7: whenever `analyze_integrity` returns a result, the
theoretical curve in its spectrum is `A·s²·e^(−B·s²)` evaluated at each of
the 39 bin centers, with `A = 32/π²` and `B = 4/π`.  The constants are
plain definitions in this embedding (set once in `__init__` and never
written again in the source), so their invariance holds by construction. -/
theorem C7_theory_curve (input : List ℝ) (label : String) (r : ScoreResult)
    (h : analyze_integrity input label = some r) :
    r.spectrum.2.2 = (List.range 39).map
      (fun i => A * centerFn i ^ 2 * Real.exp (-B * centerFn i ^ 2)) ∧
    A = 32 / Real.pi ^ 2 ∧ B = 4 / Real.pi := by
  refine ⟨?_, rfl, rfl⟩
  have hth : theoryList = (List.range 39).map
      (fun i => A * centerFn i ^ 2 * Real.exp (-B * centerFn i ^ 2)) := by
    rw [theoryList, centersList, List.map_map]
    rfl
  simp only [analyze_integrity] at h
  by_cases hc : (cleanData input).length < 50
  · rw [if_pos hc] at h
    exact absurd h (by simp)
  · rw [if_neg hc] at h
    have := Option.some.inj h
    rw [← this, ← hth]

/-- Witness for C7 at the concrete valid sample `sample50`. -/
theorem C7_witness :
    result50.spectrum.2.2 = (List.range 39).map
      (fun i => A * centerFn i ^ 2 * Real.exp (-B * centerFn i ^ 2)) ∧
    A = 32 / Real.pi ^ 2 ∧ B = 4 / Real.pi :=
  C7_theory_curve sample50 ("Muestra") result50 analyze_sample50

/-- Counterexample to claim C1 as stated: the sample of fifty equal
positive values `1.0` has a cleaned subsequence of 50 elements (a valid
input), yet the program's score is NaN: all 49 spacings are
`0 / mean = 0.0/0.0 = NaN`, the histogram is NaN-filled, the divergence
sum is NaN, and `100*exp(-NaN)` is NaN — not a real number strictly in
`(0, 100]`.  In the float-faithful model the call returns a result
(`some`) whose score field is non-finite (`none`). -/
theorem C1_counterexample :
    50 ≤ (cleanData (List.replicate 50 (1 : ℝ))).length ∧
    (analyze_integrityFP (List.replicate 50 (1 : ℝ)) ("Muestra")).map
      ScoreResultFP.score = some none := by
  constructor
  · rw [cleanData_replicate_one, List.length_replicate]
  · have h1 : ¬ (cleanData (List.replicate 50 (1 : ℝ))).length < 50 := by
      rw [cleanData_replicate_one, List.length_replicate]
      norm_num
    have hdiv : divergenceFP (unfoldFP (cleanData (List.replicate 50 (1 : ℝ)))) = none := by
      rw [cleanData_replicate_one, unfoldFP_replicate_one, divergenceFP]
      apply optSum_eq_none_of_mem
      have hl : histListFP (List.replicate 49 (none : Option ℝ)) =
          List.replicate 39 none :=
        histListFP_eq_none _
          (totalCountFP_eq_zero _ fun x hx => List.eq_of_mem_replicate hx)
      rw [hl]
      obtain ⟨y, m, hym⟩ : ∃ y m, theoryList = y :: m := by
        cases ht : theoryList with
        | nil =>
            have hlen : theoryList.length = 39 := by
              rw [theoryList, centersList]
              simp
            rw [ht] at hlen
            simp at hlen
        | cons y m => exact ⟨y, m, rfl⟩
      rw [hym, show List.replicate 39 (none : Option ℝ) = none :: List.replicate 38 none
        from rfl, List.zipWith_cons_cons]
      have hh : relEntrFP (optAdd none (some eps)) (some (y + eps)) = none := rfl
      rw [hh]
      exact List.mem_cons_self _ _
    simp only [analyze_integrityFP]
    rw [if_neg h1, hdiv]
    rfl

/-- Claim C1, amended: for every sample whose cleaned subsequence has at
least 50 elements AND at least one nonzero consecutive difference (at
least two distinct positive values), the program returns a result whose
score is a finite real strictly in `(0, 100]`, equal to 100 exactly when
the divergence is 0, with the divergence nonnegative; on this domain no
division by zero occurs and the float model agrees with the exact model.
Degenerate samples (all cleaned values equal) instead produce a NaN
score. -/
theorem C1_amended_score_in_unit_interval (input : List ℝ) (label : String)
    (h : 50 ≤ (cleanData input).length)
    (hnd : ∃ d ∈ npDiff (cleanData input), d ≠ 0) :
    ∃ v : ℝ, analyze_integrityFP input label =
        some ⟨label, some v,
          (centersList, histListFP (unfoldFP (cleanData input)), theoryList)⟩ ∧
      divergenceFP (unfoldFP (cleanData input)) =
        some (divergence (unfold_ (cleanData input))) ∧
      0 < v ∧ v ≤ 100 ∧
      (v = 100 ↔ divergence (unfold_ (cleanData input)) = 0) ∧
      0 ≤ divergence (unfold_ (cleanData input)) := by
  have hnl : ¬ (cleanData input).length < 50 := not_lt.mpr h
  have hs := cleanData_sorted input
  have hT : 0 < totalCount (unfold_ (cleanData input)) :=
    totalCount_unfold_pos _ hs (by omega)
  have hdiv : 0 < divergence (unfold_ (cleanData input)) := divergence_pos _ hT
  have hlen : (npDiff (cleanData input)).length ≠ 0 := by
    rw [npDiff_length]
    omega
  have hsumd : (npDiff (cleanData input)).sum ≠ 0 := by
    intro h0
    rcases hnd with ⟨d, hd, hdne⟩
    exact hdne (list_sum_eq_zero_of_nonneg (npDiff_nonneg hs) h0 d hd)
  have hm : mean (npDiff (cleanData input)) ≠ 0 := by
    rw [mean]
    exact div_ne_zero hsumd (by exact_mod_cast hlen)
  have hbridge : divergenceFP (unfoldFP (cleanData input)) =
      some (divergence (unfold_ (cleanData input))) := by
    rw [unfoldFP_map_some _ hm]
    exact divergenceFP_map_some _ hT
  refine ⟨100 * Real.exp (-divergence (unfold_ (cleanData input))), ?_, hbridge,
    ?_, ?_, ?_, hdiv.le⟩
  · simp only [analyze_integrityFP]
    rw [if_neg hnl, hbridge]
    rfl
  · positivity
  · have h1 : Real.exp (-divergence (unfold_ (cleanData input))) ≤ 1 :=
      Real.exp_le_one_iff.mpr (by linarith)
    linarith
  · constructor
    · intro hsc
      have h1 : Real.exp (-divergence (unfold_ (cleanData input))) = 1 := by linarith
      have h2 : -divergence (unfold_ (cleanData input)) = 0 := by
        rw [← Real.exp_eq_one_iff]
        exact h1
      linarith
    · intro h0
      rw [h0]
      simp

theorem sample50_sorted : sample50.Sorted (· ≤ ·) := by
  rw [sample50, List.Sorted]
  refine List.Pairwise.map _ ?_ (List.pairwise_lt_range 50)
  intro a b hab
  have h : (a : ℝ) ≤ (b : ℝ) := by exact_mod_cast hab.le
  linarith

theorem cleanData_sample50 : cleanData sample50 = sample50 := by
  have hf : sample50.filter (fun x => decide (0 < x)) = sample50 := by
    refine List.filter_eq_self.mpr ?_
    intro a ha
    rcases List.mem_map.mp ha with ⟨n, _, hn⟩
    rw [← hn]
    simp only [decide_eq_true_eq]
    positivity
  have hp := cleanData_perm sample50
  rw [hf] at hp
  exact List.eq_of_perm_of_sorted hp (cleanData_sorted sample50) sample50_sorted

theorem sample50_cons :
    sample50 = (1 : ℝ) :: (2 : ℝ) ::
      ((List.range 48).map fun n : ℕ => ((n : ℝ) + 3)) := by
  rw [sample50, show (50 : ℕ) = 48 + 1 + 1 from rfl, List.range_succ_eq_map,
    List.range_succ_eq_map]
  simp only [List.map_cons, List.map_map]
  congr 1
  · norm_num
  congr 1
  · norm_num [Function.comp]
  refine List.map_congr_left fun n _ => ?_
  simp only [Function.comp_apply]
  push_cast
  ring

/-- Witness for the amended C1 at the concrete valid sample `sample50`
(fifty distinct positive values `1, ..., 50`). -/
theorem C1_amended_witness :
    ∃ v : ℝ, analyze_integrityFP sample50 ("Muestra") =
        some ⟨"Muestra", some v,
          (centersList, histListFP (unfoldFP (cleanData sample50)), theoryList)⟩ ∧
      divergenceFP (unfoldFP (cleanData sample50)) =
        some (divergence (unfold_ (cleanData sample50))) ∧
      0 < v ∧ v ≤ 100 ∧
      (v = 100 ↔ divergence (unfold_ (cleanData sample50)) = 0) ∧
      0 ≤ divergence (unfold_ (cleanData sample50)) :=
  C1_amended_score_in_unit_interval sample50 ("Muestra")
    (by rw [cleanData_sample50_length])
    ⟨(2 : ℝ) - 1,
      (by
        rw [cleanData_sample50, sample50_cons, npDiff_cons_cons]
        exact List.mem_cons_self _ _),
      (by norm_num)⟩

end RiemannS
